import Mathlib

/-!
Verification development for the PAPR CLI code-graph indexer.

The definitions below are a shallow embedding of the JavaScript sources of
the code indexer: the hash/id generator (`sanitizeForId`, `generateNodeId`,
`generateFileHash`), the language detector (`detectLanguage`,
`shouldIndexFile`), the Python language extractor built on a model of the
tree-sitter AST, the `GraphBuilder` accumulator and its document
synthesizer (`generateMemoryContent`, `generateMetadata`), and the
`CodeIndexer` orchestration (`indexFile`, `indexFiles`).  External
collaborators (the tree-sitter parse itself, the PAPR memory service, the
file system and the clock) appear as explicit inputs at the boundary.
The theorems at the end of the file settle the specification claims.
-/

/-! ## JavaScript value model

Node property maps are JavaScript objects whose values are strings,
numbers, booleans, arrays of strings, or `undefined`.  A property map is an
association list in insertion order, mirroring object-literal semantics. -/

inductive JVal where
  | jstr (s : String)
  | jnum (n : Int)
  | jbool (b : Bool)
  | jarr (a : List String)
  | jundef
deriving DecidableEq, Repr

abbrev JProps := List (String × JVal)

/-- Property access `obj.k`: first binding wins, missing keys are `undefined`. -/
def jget (props : JProps) (k : String) : JVal :=
  match props.find? (fun p => p.1 = k) with
  | some p => p.2
  | none => JVal.jundef

/-- JavaScript truthiness of a value. -/
def jTruthy : JVal → Bool
  | JVal.jstr s => !s.isEmpty
  | JVal.jnum n => n ≠ 0
  | JVal.jbool b => b
  | JVal.jarr _ => true
  | JVal.jundef => false

/-- Coercion of a value to a string, as in template-literal interpolation. -/
def jDisplay : JVal → String
  | JVal.jstr s => s
  | JVal.jnum n => toString n
  | JVal.jbool b => if b then "true" else "false"
  | JVal.jarr a => String.intercalate "," a
  | JVal.jundef => "undefined"

/-- `v || default`, coerced to a string, as used for fallback display names. -/
def jOrDisplay (v : JVal) (dflt : String) : String :=
  if jTruthy v then jDisplay v else dflt

/-- Read a string-valued property; `undefined` and missing keys become `none`. -/
def jgetStr (props : JProps) (k : String) : Option String :=
  match jget props k with
  | JVal.jstr s => some s
  | _ => none

/-! ## UTF-8 bytes

`Buffer.byteLength(content, 'utf8')` and the MD5 input both work on the
UTF-8 encoding of a JavaScript string. -/

def utf8BytesOfChar (c : Char) : List Nat :=
  let n := c.toNat
  if n < 128 then [n]
  else if n < 2048 then [192 + n / 64, 128 + n % 64]
  else if n < 65536 then [224 + n / 4096, 128 + (n / 64) % 64, 128 + n % 64]
  else [240 + n / 262144, 128 + (n / 4096) % 64, 128 + (n / 64) % 64, 128 + n % 64]

def utf8Bytes (s : String) : List Nat :=
  (s.data.map utf8BytesOfChar).flatten

/-! ## MD5 (crypto.createHash('md5').update(content).digest('hex'))

A direct implementation of RFC 1321 over byte lists, with 32-bit words
represented as `Nat` reduced modulo `2^32`. -/

def md5Ks : List Nat :=
  [0xd76aa478, 0xe8c7b756, 0x242070db, 0xc1bdceee,
   0xf57c0faf, 0x4787c62a, 0xa8304613, 0xfd469501,
   0x698098d8, 0x8b44f7af, 0xffff5bb1, 0x895cd7be,
   0x6b901122, 0xfd987193, 0xa679438e, 0x49b40821,
   0xf61e2562, 0xc040b340, 0x265e5a51, 0xe9b6c7aa,
   0xd62f105d, 0x02441453, 0xd8a1e681, 0xe7d3fbc8,
   0x21e1cde6, 0xc33707d6, 0xf4d50d87, 0x455a14ed,
   0xa9e3e905, 0xfcefa3f8, 0x676f02d9, 0x8d2a4c8a,
   0xfffa3942, 0x8771f681, 0x6d9d6122, 0xfde5380c,
   0xa4beea44, 0x4bdecfa9, 0xf6bb4b60, 0xbebfbc70,
   0x289b7ec6, 0xeaa127fa, 0xd4ef3085, 0x04881d05,
   0xd9d4d039, 0xe6db99e5, 0x1fa27cf8, 0xc4ac5665,
   0xf4292244, 0x432aff97, 0xab9423a7, 0xfc93a039,
   0x655b59c3, 0x8f0ccc92, 0xffeff47d, 0x85845dd1,
   0x6fa87e4f, 0xfe2ce6e0, 0xa3014314, 0x4e0811a1,
   0xf7537e82, 0xbd3af235, 0x2ad7d2bb, 0xeb86d391]

def md5Ss : List Nat :=
  [7, 12, 17, 22, 7, 12, 17, 22, 7, 12, 17, 22, 7, 12, 17, 22,
   5, 9, 14, 20, 5, 9, 14, 20, 5, 9, 14, 20, 5, 9, 14, 20,
   4, 11, 16, 23, 4, 11, 16, 23, 4, 11, 16, 23, 4, 11, 16, 23,
   6, 10, 15, 21, 6, 10, 15, 21, 6, 10, 15, 21, 6, 10, 15, 21]

def md5K (i : Nat) : Nat := md5Ks.getD i 0

def md5S (i : Nat) : Nat := md5Ss.getD i 0

def rotl32 (x n : Nat) : Nat :=
  ((x <<< n) ||| (x >>> (32 - n))) % 4294967296

def md5F (b c d i : Nat) : Nat :=
  if i < 16 then (b &&& c) ||| ((4294967295 - b % 4294967296) &&& d)
  else if i < 32 then (d &&& b) ||| ((4294967295 - d % 4294967296) &&& c)
  else if i < 48 then b ^^^ c ^^^ d
  else c ^^^ (b ||| (4294967295 - d % 4294967296))

def md5G (i : Nat) : Nat :=
  if i < 16 then i
  else if i < 32 then (5 * i + 1) % 16
  else if i < 48 then (3 * i + 5) % 16
  else (7 * i) % 16

/-- One of the 64 mixing steps on the state `(a, b, c, d)`. -/
def md5Step (m : Nat → Nat) (st : Nat × Nat × Nat × Nat) (i : Nat) :
    Nat × Nat × Nat × Nat :=
  let a := st.1
  let b := st.2.1
  let c := st.2.2.1
  let d := st.2.2.2
  let f := (md5F b c d i + a + md5K i + m (md5G i)) % 4294967296
  (d, (b + rotl32 f (md5S i)) % 4294967296, b, c)

/-- Little-endian 8-byte encoding of the bit length. -/
def le8 (n : Nat) : List Nat :=
  [n % 256, n / 256 % 256, n / 65536 % 256, n / 16777216 % 256,
   n / 4294967296 % 256, n / 1099511627776 % 256,
   n / 281474976710656 % 256, n / 72057594037927936 % 256]

def md5Pad (msg : List Nat) : List Nat :=
  let z := (56 + 64 - (msg.length + 1) % 64) % 64
  msg ++ [128] ++ List.replicate z 0 ++ le8 (msg.length * 8)

def chunk64 : List Nat → List (List Nat)
  | [] => []
  | b :: rest => ((b :: rest).take 64) :: chunk64 ((b :: rest).drop 64)
termination_by l => l.length
decreasing_by
  simp only [List.drop_succ_cons, List.length_cons, List.length_drop]
  omega

/-- The `j`-th little-endian 32-bit word of a 64-byte chunk. -/
def md5Word (chunk : List Nat) (j : Nat) : Nat :=
  chunk.getD (4 * j) 0 + 256 * chunk.getD (4 * j + 1) 0 +
    65536 * chunk.getD (4 * j + 2) 0 + 16777216 * chunk.getD (4 * j + 3) 0

def md5Chunk (st : Nat × Nat × Nat × Nat) (chunk : List Nat) :
    Nat × Nat × Nat × Nat :=
  let r := (List.range 64).foldl (md5Step (md5Word chunk)) st
  ((st.1 + r.1) % 4294967296, (st.2.1 + r.2.1) % 4294967296,
   (st.2.2.1 + r.2.2.1) % 4294967296, (st.2.2.2 + r.2.2.2) % 4294967296)

def hexDigit (n : Nat) : Char :=
  if n < 10 then Char.ofNat (48 + n) else Char.ofNat (87 + n)

/-- Lowercase hex of one byte. -/
def hexByte (n : Nat) : String :=
  String.mk [hexDigit (n / 16 % 16), hexDigit (n % 16)]

/-- Lowercase hex of a 32-bit word, little-endian byte order as in a digest. -/
def hexWordLE (w : Nat) : String :=
  hexByte (w % 256) ++ hexByte (w / 256 % 256) ++ hexByte (w / 65536 % 256) ++
    hexByte (w / 16777216 % 256)

/-- MD5 digest of a byte list, as a lowercase hex string. -/
def md5HexBytes (msg : List Nat) : String :=
  let st := (chunk64 (md5Pad msg)).foldl md5Chunk
    (0x67452301, 0xefcdab89, 0x98badcfe, 0x10325476)
  hexWordLE st.1 ++ hexWordLE st.2.1 ++ hexWordLE st.2.2.1 ++ hexWordLE st.2.2.2

/-- MD5 of a string's UTF-8 encoding, as `crypto` computes it. -/
def md5Hex (s : String) : String := md5HexBytes (utf8Bytes s)

/-! ## hash-generator.js -/

/-- `generateFileHash(content)`: MD5 of the file content. -/
def generateFileHash (content : String) : String := md5Hex content

/-- Characters kept verbatim by the first `replace` of `sanitizeForId`:
the class `[a-zA-Z0-9_-]`. -/
def isIdChar (c : Char) : Bool :=
  (97 ≤ c.toNat && c.toNat ≤ 122) || (65 ≤ c.toNat && c.toNat ≤ 90) ||
    (48 ≤ c.toNat && c.toNat ≤ 57) || c.toNat = 95 || c.toNat = 45

/-- `.replace(/[^a-zA-Z0-9_-]/g, '_')`. -/
def replaceSpecial (cs : List Char) : List Char :=
  cs.map (fun c => if isIdChar c then c else '_')

/-- `.replace(/_{2,}/g, '_')`: each maximal run of two or more underscores
becomes a single underscore. -/
def collapseUnderscores : List Char → List Char
  | [] => []
  | [c] => [c]
  | c1 :: c2 :: rest =>
    if c1 = '_' && c2 = '_' then collapseUnderscores (c2 :: rest)
    else c1 :: collapseUnderscores (c2 :: rest)

/-- `.replace(/^_+|_+$/g, '')`: drop the leading and trailing underscore runs. -/
def trimUnderscores (cs : List Char) : List Char :=
  (((cs.dropWhile (fun c => c = '_')).reverse).dropWhile (fun c => c = '_')).reverse

/-- `.toLowerCase()` on the ASCII characters that survive sanitization. -/
def lowerChars (cs : List Char) : List Char := cs.map Char.toLower

/-- `sanitizeForId(str)`.  `none` stands for `null`/`undefined`; together
with the empty string these are the falsy inputs of the `if (!str)` guard. -/
def sanitizeForId : Option String → String
  | none => "unknown"
  | some s =>
    if s.isEmpty then "unknown"
    else String.mk (lowerChars (trimUnderscores (collapseUnderscores (replaceSpecial s.data))))

/-- `sanitizeForId` applied to a property that should be a string;
a missing property is `undefined`, hence falsy. -/
def sanitizeProp (props : JProps) (k : String) : String :=
  sanitizeForId (jgetStr props k)

/-- JSON.stringify string escaping (sufficient for the property values the
indexer produces). -/
def jsonEscapeChar (c : Char) : String :=
  if c = '"' then "\\\""
  else if c = '\\' then "\\\\"
  else if c = Char.ofNat 10 then "\\n"
  else if c = Char.ofNat 13 then "\\r"
  else if c = Char.ofNat 9 then "\\t"
  else if c = Char.ofNat 8 then "\\b"
  else if c = Char.ofNat 12 then "\\f"
  else if c.toNat < 32 then "\\u00" ++ hexByte c.toNat
  else String.mk [c]

def jsonEscape (s : String) : String :=
  String.join (s.data.map jsonEscapeChar)

def jsonOfJVal : JVal → String
  | JVal.jstr s => "\"" ++ jsonEscape s ++ "\""
  | JVal.jnum n => toString n
  | JVal.jbool b => if b then "true" else "false"
  | JVal.jarr a =>
    "[" ++ String.intercalate "," (a.map (fun s => "\"" ++ jsonEscape s ++ "\"")) ++ "]"
  | JVal.jundef => "null"

/-- `JSON.stringify(properties)`: keys in insertion order; properties whose
value is `undefined` are omitted. -/
def jsonStringify (props : JProps) : String :=
  "\x7b" ++
    String.intercalate ","
      ((props.filter (fun p => p.2 ≠ JVal.jundef)).map
        (fun p => "\"" ++ jsonEscape p.1 ++ "\":" ++ jsonOfJVal p.2)) ++
    "\x7d"

/-- `generateNodeId(nodeType, properties)`: the per-label deterministic ID
composition of hash-generator.js. -/
def generateNodeId (nodeType : String) (properties : JProps) : String :=
  if nodeType = "File" then
    "file_" ++ sanitizeProp properties "path"
  else if nodeType = "Function" then
    "func_" ++ sanitizeProp properties "filePath" ++ "_" ++
      sanitizeProp properties "name" ++ "_" ++ jDisplay (jget properties "startLine")
  else if nodeType = "Class" then
    "class_" ++ sanitizeProp properties "filePath" ++ "_" ++ sanitizeProp properties "name"
  else if nodeType = "Import" then
    "import_" ++ sanitizeProp properties "filePath" ++ "_" ++
      sanitizeProp properties "moduleName"
  else if nodeType = "Export" then
    "export_" ++ sanitizeProp properties "filePath" ++ "_" ++ sanitizeProp properties "name"
  else if nodeType = "Variable" then
    "var_" ++ sanitizeProp properties "filePath" ++ "_" ++ sanitizeProp properties "name" ++
      "_" ++ jDisplay (jget properties "scope") ++ "_" ++ jDisplay (jget properties "line")
  else if nodeType = "CallSite" then
    "call_" ++ sanitizeProp properties "filePath" ++ "_" ++
      sanitizeProp properties "calleeName" ++ "_" ++ jDisplay (jget properties "line")
  else if nodeType = "Decorator" then
    "dec_" ++ sanitizeProp properties "filePath" ++ "_" ++ sanitizeProp properties "name" ++
      "_" ++ jDisplay (jget properties "line")
  else if nodeType = "Comment" then
    "comment_" ++ sanitizeProp properties "filePath" ++ "_" ++
      jDisplay (jget properties "startLine")
  else if nodeType = "Package" then
    "pkg_" ++ sanitizeProp properties "name" ++ "_" ++
      sanitizeForId (some (jOrDisplay (jget properties "version") "latest"))
  else
    String.mk (lowerChars nodeType.data) ++ "_" ++ md5Hex (jsonStringify properties)

/-- `generateShortHash(content)`: first 8 hex characters of the MD5. -/
def generateShortHash (content : String) : String :=
  String.mk ((md5Hex content).data.take 8)

/-! ## language-detector.js -/

def startsWithL : List Char → List Char → Bool
  | [], _ => true
  | _ :: _, [] => false
  | a :: as, b :: bs => a = b && startsWithL as bs

/-- `needle` occurs as a contiguous substring of `hay`: the semantics of an
unanchored literal-text regular expression `test`. -/
def containsL (needle : List Char) : List Char → Bool
  | [] => needle.isEmpty
  | c :: rest => startsWithL needle (c :: rest) || containsL needle rest

def jsIncludes (hay needle : String) : Bool := containsL needle.data hay.data

def LANGUAGE_MAP : List (String × String) :=
  [(".py", "python"), (".pyw", "python"), (".pyi", "python"),
   (".js", "javascript"), (".mjs", "javascript"), (".cjs", "javascript"),
   (".jsx", "javascript"), (".ts", "typescript"), (".tsx", "typescript"),
   (".mts", "typescript"), (".cts", "typescript"),
   (".java", "java"), (".go", "go"), (".rs", "rust"),
   (".c", "c"), (".h", "c"), (".cpp", "cpp"), (".hpp", "cpp"),
   (".cc", "cpp"), (".cxx", "cpp"),
   (".rb", "ruby"), (".php", "php"),
   (".sh", "shell"), (".bash", "shell"), (".zsh", "shell")]

/-- The final path segment (after the last '/'). -/
def basenameChars (cs : List Char) : List Char :=
  ((cs.reverse.takeWhile (fun c => c ≠ '/')).reverse)

/-- `path.extname`: the suffix of the basename from its last dot, empty when
there is no dot or the only dot leads the basename. -/
def extnameChars (cs : List Char) : List Char :=
  let b := basenameChars cs
  let afterDot := b.reverse.takeWhile (fun c => c ≠ '.')
  if afterDot.length < b.length then
    if b.length - afterDot.length - 1 = 0 then [] else '.' :: afterDot.reverse
  else []

def extname (p : String) : String := String.mk (extnameChars p.data)

/-- `detectLanguage(filePath)`. -/
def detectLanguage (filePath : String) : Option String :=
  match LANGUAGE_MAP.find? (fun e => e.1 = String.mk (lowerChars (extname filePath).data)) with
  | some e => some e.2
  | none => none

/-- The literal texts of `IGNORE_PATTERNS` (each regex is an unanchored
literal, so `test` is substring containment). -/
def IGNORE_PATTERNS : List String :=
  ["node_modules", ".git", "dist", "build", "target", ".next", ".vscode",
   ".idea", "__pycache__", ".pytest_cache", ".DS_Store", ".env",
   "package-lock.json", "yarn.lock", "pnpm-lock.yaml"]

/-- Substring texts of the test-file patterns; `/test[s]?\//` contributes the
two alternatives `test/` and `tests/`. -/
def testPatterns : List String :=
  ["test/", "tests/", "/__tests__/", ".test.", ".spec.", "_test."]

def generatedPatterns : List String :=
  [".generated.", ".gen.", "-generated.", "generated/", "gen/"]

/-- `shouldIndexFile(filePath, { includeTests, includeGenerated })`. -/
def shouldIndexFile (filePath : String) (includeTests includeGenerated : Bool) : Bool :=
  if IGNORE_PATTERNS.any (fun pat => jsIncludes filePath pat) then false
  else if (detectLanguage filePath).isNone then false
  else if !includeTests && testPatterns.any (fun pat => jsIncludes filePath pat) then false
  else if !includeGenerated && generatedPatterns.any (fun pat => jsIncludes filePath pat) then
    false
  else true

/-! ## Model of the tree-sitter AST (the external source-AST provider)

A parse-tree node has a grammar `type`, the covered source `text`,
zero-based start/end rows, and named-field or anonymous children in
document order.  The indexer consumes only these observations, so they are
the boundary of the embedding.  `tsWalk` enumerates a subtree in preorder
together with each node's parent, which models both tree-sitter query
matching (a pattern of the shapes used here matches every descendant node
of the right type carrying the required fields) and the `.parent`
accessor. -/

inductive TSNode where
  | mk (type : String) (text : String) (startRow endRow : Nat)
       (children : List (Option String × TSNode))

def TSNode.type : TSNode → String
  | .mk t _ _ _ _ => t

def TSNode.text : TSNode → String
  | .mk _ x _ _ _ => x

def TSNode.startRow : TSNode → Nat
  | .mk _ _ s _ _ => s

def TSNode.endRow : TSNode → Nat
  | .mk _ _ _ e _ => e

def TSNode.children : TSNode → List (Option String × TSNode)
  | .mk _ _ _ _ cs => cs

/-- `node.childForFieldName(f)`: the first child filling field `f`. -/
def TSNode.childForField (n : TSNode) (f : String) : Option TSNode :=
  match n.children.find? (fun c => c.1 = some f) with
  | some c => some c.2
  | none => none

/-- All children filling field `f`, in order (fields may repeat). -/
def TSNode.fieldChildren (n : TSNode) (f : String) : List TSNode :=
  n.children.filterMap (fun c => if c.1 = some f then some c.2 else none)

mutual

/-- Preorder traversal paired with each node's parent. -/
def tsWalk (parent : Option TSNode) : TSNode → List (TSNode × Option TSNode)
  | .mk t x s e cs => (.mk t x s e cs, parent) :: tsWalkChildren (.mk t x s e cs) cs

def tsWalkChildren (p : TSNode) : List (Option String × TSNode) → List (TSNode × Option TSNode)
  | [] => []
  | c :: rest => tsWalk (some p) c.2 ++ tsWalkChildren p rest

end

/-! ## Graph items (nodes and relationships) -/

structure GNode where
  id : String
  label : String
  properties : JProps
deriving DecidableEq, Repr

structure GRel where
  source_node_id : String
  target_node_id : String
  relationship_type : String
  properties : JProps
deriving DecidableEq, Repr

/-- `BaseParser.createRelationship`. -/
def createRelationship (sourceId targetId ty : String) (properties : JProps := []) : GRel :=
  { source_node_id := sourceId, target_node_id := targetId,
    relationship_type := ty, properties := properties }

structure ExtractResult where
  nodes : List GNode
  relationships : List GRel
deriving DecidableEq, Repr

/-! ## python-parser.js -/

/-- The pattern `(function_definition name: (identifier) parameters:
(parameters) body: (block))` matches a node. -/
def isFuncDefMatch (n : TSNode) : Bool :=
  n.type = "function_definition" &&
    (match n.childForField "name" with
     | some c => c.type = "identifier"
     | none => false) &&
    (match n.childForField "parameters" with
     | some c => c.type = "parameters"
     | none => false) &&
    (match n.childForField "body" with
     | some c => c.type = "block"
     | none => false)

/-- The pattern `(call function: (identifier))` matches a node. -/
def isCallMatch (n : TSNode) : Bool :=
  n.type = "call" &&
    (match n.childForField "function" with
     | some c => c.type = "identifier"
     | none => false)

/-- The pattern `(class_definition name: (identifier) superclasses:
(argument_list)? body: (block))` matches a node. -/
def isClassDefMatch (n : TSNode) : Bool :=
  n.type = "class_definition" &&
    (match n.childForField "name" with
     | some c => c.type = "identifier"
     | none => false) &&
    (match n.childForField "body" with
     | some c => c.type = "block"
     | none => false)

/-- `PythonParser.extractCallsFromFunction(bodyNode, filePath, functionId)`. -/
def extractCallsFromFunction (bodyNode : Option TSNode) (filePath functionId : String) :
    List GRel :=
  match bodyNode with
  | none => []
  | some b =>
    ((tsWalk none b).filter (fun m => isCallMatch m.1)).filterMap (fun m =>
      match m.1.childForField "function" with
      | some calleeNode =>
        let calleeName := calleeNode.text
        let line : Int := m.1.startRow + 1
        let targetFunctionId := generateNodeId "Function"
          [("filePath", JVal.jstr "unknown"), ("name", JVal.jstr calleeName),
           ("startLine", JVal.jnum 0)]
        some (createRelationship functionId targetFunctionId "CALLS"
          [("line", JVal.jnum line)])
      | none => none)

/-- `PythonParser.extractDecoratorsForNode(decoratedNode, filePath, targetId)`. -/
def extractDecoratorsForNode (decoratedNode : TSNode) (filePath targetId : String) :
    List GRel :=
  decoratedNode.children.filterMap (fun c =>
    if c.2.type = "decorator" then
      let nameNode :=
        match c.2.childForField "name" with
        | some n => some n
        | none => (c.2.children.find? (fun (ch : Option String × TSNode) => ch.2.type = "identifier")).map (fun (p : Option String × TSNode) => p.2)
      match nameNode with
      | some n =>
        let decoratorId := generateNodeId "Decorator"
          [("filePath", JVal.jstr filePath), ("name", JVal.jstr n.text),
           ("line", JVal.jnum (Int.ofNat (c.2.startRow + 1)))]
        some (createRelationship targetId decoratorId "DECORATED_WITH")
      | none => none
    else none)

/-- Per-match body of the `extractFunctions` loop: the Function node and the
relationships pushed for one query match (`DEFINED_IN`, then calls, then
decorators). -/
def processFuncMatch (filePath fileNodeId : String) (m : TSNode × Option TSNode) :
    Option (GNode × List GRel) :=
  match m.1.childForField "name", m.1.childForField "parameters",
      m.1.childForField "body" with
  | some nameNode, some paramsNode, some bodyNode =>
    let name := nameNode.text
    let signature := paramsNode.text
    let fullSignature := "def " ++ name ++ signature
    let startLine : Int := m.1.startRow + 1
    let endLine : Int := m.1.endRow + 1
    let isAsync :=
      match m.2 with
      | some p => p.type = "decorated_definition" && jsIncludes p.text "async"
      | none => false
    let functionId := generateNodeId "Function"
      [("filePath", JVal.jstr filePath), ("name", JVal.jstr name),
       ("startLine", JVal.jnum startLine)]
    let node : GNode :=
      { id := functionId, label := "Function",
        properties :=
          [("name", JVal.jstr name), ("signature", JVal.jstr fullSignature),
           ("language", JVal.jstr "python"), ("startLine", JVal.jnum startLine),
           ("endLine", JVal.jnum endLine), ("async", JVal.jbool isAsync)] }
    let calls := extractCallsFromFunction (some bodyNode) filePath functionId
    let decorators :=
      match m.2 with
      | some p =>
        if p.type = "decorated_definition" then
          extractDecoratorsForNode p filePath functionId
        else []
      | none => []
    some (node, createRelationship functionId fileNodeId "DEFINED_IN" :: calls ++ decorators)
  | _, _, _ => none

/-- `PythonParser.extractFunctions(tree, filePath)`. -/
def extractFunctions (tree : TSNode) (filePath : String) : ExtractResult :=
  let fileNodeId := generateNodeId "File" [("path", JVal.jstr filePath)]
  let results := ((tsWalk none tree).filter (fun m => isFuncDefMatch m.1)).filterMap
    (processFuncMatch filePath fileNodeId)
  { nodes := results.map (fun r => r.1),
    relationships := (results.map (fun r => r.2)).flatten }

/-- `PythonParser.extractBaseClasses(basesNode)`. -/
def extractBaseClasses (basesNode : TSNode) : List String :=
  basesNode.children.filterMap (fun c =>
    if c.2.type = "identifier" then some c.2.text
    else if c.2.type = "attribute" then some c.2.text
    else none)

/-- `PythonParser.extractMethodsFromClass(bodyNode, filePath, classId)`. -/
def extractMethodsFromClass (bodyNode : Option TSNode) (filePath classId : String) :
    List GRel :=
  match bodyNode with
  | none => []
  | some b =>
    b.children.filterMap (fun c =>
      if c.2.type = "function_definition" then
        match c.2.childForField "name" with
        | some nameNode =>
          let methodId := generateNodeId "Function"
            [("filePath", JVal.jstr filePath), ("name", JVal.jstr nameNode.text),
             ("startLine", JVal.jnum (Int.ofNat (c.2.startRow + 1)))]
          some (createRelationship classId methodId "HAS_METHOD")
        | none => none
      else none)

/-- Per-match body of the `extractClasses` loop: the Class node and the
relationships pushed for one match (`DEFINED_IN`, then one `EXTENDS` per
extracted base, then `HAS_METHOD` edges). -/
def processClassMatch (filePath fileNodeId : String) (m : TSNode × Option TSNode) :
    Option (GNode × List GRel) :=
  match m.1.childForField "name", m.1.childForField "body" with
  | some nameNode, some bodyNode =>
    let name := nameNode.text
    let startLine : Int := m.1.startRow + 1
    let endLine : Int := m.1.endRow + 1
    let classId := generateNodeId "Class"
      [("filePath", JVal.jstr filePath), ("name", JVal.jstr name)]
    let node : GNode :=
      { id := classId, label := "Class",
        properties :=
          [("name", JVal.jstr name), ("language", JVal.jstr "python"),
           ("startLine", JVal.jnum startLine), ("endLine", JVal.jnum endLine),
           ("isAbstract", JVal.jbool false)] }
    let basesNode :=
      match m.1.childForField "superclasses" with
      | some bn => if bn.type = "argument_list" then some bn else none
      | none => none
    let extendsRels :=
      match basesNode with
      | some bn =>
        (extractBaseClasses bn).map (fun baseClass =>
          let baseClassId := generateNodeId "Class"
            [("filePath", JVal.jstr "unknown"), ("name", JVal.jstr baseClass)]
          createRelationship classId baseClassId "EXTENDS")
      | none => []
    let methodRels := extractMethodsFromClass (some bodyNode) filePath classId
    some (node, createRelationship classId fileNodeId "DEFINED_IN" :: extendsRels ++ methodRels)
  | _, _ => none

/-- `PythonParser.extractClasses(tree, filePath)`. -/
def extractClasses (tree : TSNode) (filePath : String) : ExtractResult :=
  let fileNodeId := generateNodeId "File" [("path", JVal.jstr filePath)]
  let results := ((tsWalk none tree).filter (fun m => isClassDefMatch m.1)).filterMap
    (processClassMatch filePath fileNodeId)
  { nodes := results.map (fun r => r.1),
    relationships := (results.map (fun r => r.2)).flatten }

/-- Matches of `(import_statement name: (dotted_name) @module)`: one match
per `name` field of each import statement. -/
def importMatches (tree : TSNode) : List (TSNode × TSNode) :=
  ((tsWalk none tree).map (fun m =>
    if m.1.type = "import_statement" then
      (m.1.fieldChildren "name").filterMap (fun nm =>
        if nm.type = "dotted_name" then some (m.1, nm) else none)
    else [])).flatten

/-- Matches of `(import_from_statement module_name: (dotted_name) @module
name: (dotted_name) @names)`: one match per imported name. -/
def importFromMatches (tree : TSNode) : List (TSNode × TSNode × TSNode) :=
  ((tsWalk none tree).map (fun m =>
    if m.1.type = "import_from_statement" then
      match (m.1.fieldChildren "module_name").find? (fun c => c.type = "dotted_name") with
      | some modNode =>
        (m.1.fieldChildren "name").filterMap (fun nm =>
          if nm.type = "dotted_name" then some (m.1, modNode, nm) else none)
      | none => []
    else [])).flatten

/-- `PythonParser.extractImports(tree, filePath)`: Import nodes paired with
`IMPORTS` (File → Import) relationships. -/
def extractImports (tree : TSNode) (filePath : String) : ExtractResult :=
  let fileNodeId := generateNodeId "File" [("path", JVal.jstr filePath)]
  let regResults := (importMatches tree).map (fun m =>
    let moduleName := m.2.text
    let line : Int := m.1.startRow + 1
    let importId := generateNodeId "Import"
      [("filePath", JVal.jstr filePath), ("moduleName", JVal.jstr moduleName)]
    (({ id := importId, label := "Import",
        properties :=
          [("moduleName", JVal.jstr moduleName), ("line", JVal.jnum line),
           ("isWildcard", JVal.jbool false)] } : GNode),
     createRelationship fileNodeId importId "IMPORTS"))
  let fromResults := (importFromMatches tree).map (fun m =>
    let moduleName := m.2.1.text
    let importedNames := [m.2.2.text]
    let line : Int := m.1.startRow + 1
    let importId := generateNodeId "Import"
      [("filePath", JVal.jstr filePath), ("moduleName", JVal.jstr moduleName)]
    (({ id := importId, label := "Import",
        properties :=
          [("moduleName", JVal.jstr moduleName),
           ("importedNames", JVal.jarr importedNames), ("line", JVal.jnum line),
           ("isWildcard", JVal.jbool (importedNames.contains "*"))] } : GNode),
     createRelationship fileNodeId importId "IMPORTS"))
  { nodes := regResults.map (fun r => r.1) ++ fromResults.map (fun r => r.1),
    relationships := regResults.map (fun r => r.2) ++ fromResults.map (fun r => r.2) }

/-- `BaseParser.createFileNode(filePath, content, hash)`; `now` is the
external clock value used for `lastModified`. -/
def createFileNode (languageName filePath content hash now : String) : GNode :=
  { id := generateNodeId "File" [("path", JVal.jstr filePath)],
    label := "File",
    properties :=
      [("path", JVal.jstr filePath), ("language", JVal.jstr languageName),
       ("size", JVal.jnum (utf8Bytes content).length), ("hash", JVal.jstr hash),
       ("lastModified", JVal.jstr now)] }

structure ParseStats where
  functions : Nat
  classes : Nat
  imports : Nat
  exports : Nat
  vars : Nat
  comments : Nat
deriving DecidableEq, Repr

structure ParseSuccess where
  nodes : List GNode
  relationships : List GRel
  stats : ParseStats
deriving DecidableEq, Repr

/-- The successful branch of `BaseParser.parseFile` for the Python parser,
given the tree produced by the external tree-sitter parse.  Exports,
variables and comments use the base-class defaults (empty). -/
def parseFileWithTree (filePath content : String) (tree : TSNode) (now : String) :
    ParseSuccess :=
  let fileHash := generateFileHash content
  let fileNode := createFileNode "python" filePath content fileHash now
  let functions := extractFunctions tree filePath
  let classes := extractClasses tree filePath
  let imports := extractImports tree filePath
  { nodes := fileNode :: functions.nodes ++ classes.nodes ++ imports.nodes,
    relationships := functions.relationships ++ classes.relationships ++
      imports.relationships,
    stats :=
      { functions := functions.nodes.length, classes := classes.nodes.length,
        imports := imports.nodes.length, exports := 0, vars := 0,
        comments := 0 } }

/-- `BaseParser.parseFile`: a throwing tree-sitter parse (the model of a
file-level syntax error) is caught and reported as a failure scoped to the
file. -/
def parseFile (filePath content : String) (parse : Except String TSNode)
    (now : String) : Except String ParseSuccess :=
  match parse with
  | Except.error e => Except.error e
  | Except.ok tree => Except.ok (parseFileWithTree filePath content tree now)

/-! ## graph-builder.js -/

structure GraphBuilder where
  nodes : List GNode
  relationships : List GRel
  nodeIndex : List (String × GNode)
deriving Repr

def GraphBuilder.empty : GraphBuilder :=
  { nodes := [], relationships := [], nodeIndex := [] }

/-- `this.nodeIndex.has(id)`. -/
def indexHas (idx : List (String × GNode)) (id : String) : Bool :=
  (idx.find? (fun p => p.1 = id)).isSome

/-- The loop body of `addNodes`: push the node and index it unless its ID is
already indexed. -/
def addNode (gb : GraphBuilder) (n : GNode) : GraphBuilder :=
  if indexHas gb.nodeIndex n.id then gb
  else { gb with nodes := gb.nodes ++ [n], nodeIndex := gb.nodeIndex ++ [(n.id, n)] }

/-- `GraphBuilder.addNodes(nodes)`. -/
def GraphBuilder.addNodes (gb : GraphBuilder) (ns : List GNode) : GraphBuilder :=
  ns.foldl addNode gb

/-- `GraphBuilder.addRelationships(relationships)`: unconditional append. -/
def GraphBuilder.addRelationships (gb : GraphBuilder) (rs : List GRel) : GraphBuilder :=
  { gb with relationships := gb.relationships ++ rs }

/-- `GraphBuilder.buildGraphOverride()`. -/
def GraphBuilder.buildGraphOverride (gb : GraphBuilder) : List GNode × List GRel :=
  (gb.nodes, gb.relationships)

/-- `this.nodeIndex.get(id)` (`GraphBuilder.findNode`). -/
def GraphBuilder.findNode (gb : GraphBuilder) (id : String) : Option GNode :=
  (gb.nodeIndex.find? (fun p => p.1 = id)).map (fun p => p.2)

/-- The File node lookup opening `generateMemoryContent` and
`generateMetadata`. -/
def fileNodeOf (gb : GraphBuilder) (filePath : String) : Option GNode :=
  gb.nodes.find? (fun n => n.label == "File" && jget n.properties "path" == JVal.jstr filePath)

/-- A node has some `DEFINED_IN` relationship to the given File node. -/
def definedInFile (gb : GraphBuilder) (fileNodeId : String) (n : GNode) : Bool :=
  gb.relationships.any (fun r =>
    r.source_node_id == n.id && r.target_node_id == fileNodeId &&
      r.relationship_type == "DEFINED_IN")

def functionsOfFile (gb : GraphBuilder) (fileNodeId : String) : List GNode :=
  gb.nodes.filter (fun n => n.label == "Function" && definedInFile gb fileNodeId n)

def classesOfFile (gb : GraphBuilder) (fileNodeId : String) : List GNode :=
  gb.nodes.filter (fun n => n.label == "Class" && definedInFile gb fileNodeId n)

def importsOfFile (gb : GraphBuilder) (fileNodeId : String) : List GNode :=
  gb.nodes.filter (fun n =>
    n.label == "Import" && gb.relationships.any (fun r =>
      r.source_node_id == fileNodeId && r.target_node_id == n.id &&
        r.relationship_type == "IMPORTS"))

/-- `${fileNode.properties.hash?.substring(0, 8)}`. -/
def hashDisplay : JVal → String
  | JVal.jstr s => String.mk (s.data.take 8)
  | _ => "undefined"

/-- The document header built before the sections. -/
def contentHeader (filePath : String) (fileNode : GNode) : String :=
  "# Code File: " ++ filePath ++ "\n\n" ++
  "**Language:** " ++ jDisplay (jget fileNode.properties "language") ++ "\n" ++
  "**Size:** " ++ jDisplay (jget fileNode.properties "size") ++ " bytes\n" ++
  "**Hash:** " ++ hashDisplay (jget fileNode.properties "hash") ++ "\n\n"

/-- One bullet of the imports list. -/
def renderImport (imp : GNode) : String :=
  "- " ++ jDisplay (jget imp.properties "moduleName") ++
    (match jget imp.properties "importedNames" with
     | JVal.jarr a =>
       if a.length > 0 then " (" ++ String.intercalate ", " a ++ ")" else ""
     | _ => "") ++ "\n"

/-- The imports section: at most the first 10 imports are listed; beyond 10 a
`... and N more` trailer names the remainder. -/
def importsSection (imports : List GNode) : String :=
  if imports.length > 0 then
    "## Imports (" ++ toString imports.length ++ ")\n" ++
    String.join ((imports.take 10).map renderImport) ++
    (if imports.length > 10 then
      "... and " ++ toString (imports.length - 10) ++ " more\n"
     else "") ++
    "\n"
  else ""

def renderClass (gb : GraphBuilder) (cls : GNode) : String :=
  "### " ++ jDisplay (jget cls.properties "name") ++ "\n" ++
  "Lines " ++ jDisplay (jget cls.properties "startLine") ++ "-" ++
    jDisplay (jget cls.properties "endLine") ++ "\n" ++
  (let methods := (gb.relationships.filter (fun r =>
      r.source_node_id == cls.id && r.relationship_type == "HAS_METHOD")).filterMap
      (fun r => gb.findNode r.target_node_id)
   if methods.length > 0 then
     "Methods: " ++ String.intercalate ", "
       (methods.map (fun m => jDisplay (jget m.properties "name"))) ++ "\n"
   else "") ++
  (let baseClasses := (gb.relationships.filter (fun r =>
      r.source_node_id == cls.id && r.relationship_type == "EXTENDS")).map (fun r =>
        match gb.findNode r.target_node_id with
        | some b => jOrDisplay (jget b.properties "name") "Unknown"
        | none => "Unknown")
   if baseClasses.length > 0 then
     "Extends: " ++ String.intercalate ", " baseClasses ++ "\n"
   else "") ++
  "\n"

def classesSection (gb : GraphBuilder) (classes : List GNode) : String :=
  if classes.length > 0 then
    "## Classes (" ++ toString classes.length ++ ")\n" ++
    String.join (classes.map (renderClass gb))
  else ""

def renderFunction (gb : GraphBuilder) (language : String) (fn : GNode) : String :=
  "### " ++ jDisplay (jget fn.properties "name") ++ "\n" ++
  (if jTruthy (jget fn.properties "signature") then
    "```" ++ language ++ "\n" ++ jDisplay (jget fn.properties "signature") ++ "\n```\n"
   else "") ++
  "Lines " ++ jDisplay (jget fn.properties "startLine") ++ "-" ++
    jDisplay (jget fn.properties "endLine") ++ "\n" ++
  (let calls := (gb.relationships.filter (fun r =>
      r.source_node_id == fn.id && r.relationship_type == "CALLS")).map (fun r =>
        match gb.findNode r.target_node_id with
        | some c => jOrDisplay (jget c.properties "name") "unknown"
        | none => "unknown")
   if calls.length > 0 then
     "Calls: " ++ String.intercalate ", " (calls.take 5) ++
     (if calls.length > 5 then ", ... (" ++ toString (calls.length - 5) ++ " more)"
      else "") ++ "\n"
   else "") ++
  (let decorators := (gb.relationships.filter (fun r =>
      r.source_node_id == fn.id && r.relationship_type == "DECORATED_WITH")).map (fun r =>
        match gb.findNode r.target_node_id with
        | some d => jOrDisplay (jget d.properties "name") "unknown"
        | none => "unknown")
   if decorators.length > 0 then
     "Decorators: @" ++ String.intercalate ", @" decorators ++ "\n"
   else "") ++
  "\n"

def functionsSection (gb : GraphBuilder) (language : String) (functions : List GNode) :
    String :=
  if functions.length > 0 then
    "## Functions (" ++ toString functions.length ++ ")\n" ++
    String.join (functions.map (renderFunction gb language))
  else ""

/-- The trailing verbatim source block (`sourceCode` is optional and falsy
when empty). -/
def sourceSection (language : String) : Option String → String
  | some src =>
    if src.isEmpty then ""
    else "## Full Source Code\n```" ++ language ++ "\n" ++ src ++ "\n```\n"
  | none => ""

/-- `GraphBuilder.generateMemoryContent(filePath, sourceCode)`. -/
def GraphBuilder.generateMemoryContent (gb : GraphBuilder) (filePath : String)
    (sourceCode : Option String) : String :=
  match fileNodeOf gb filePath with
  | none => "File: " ++ filePath
  | some fileNode =>
    let fileNodeId := fileNode.id
    let functions := functionsOfFile gb fileNodeId
    let classes := classesOfFile gb fileNodeId
    let imports := importsOfFile gb fileNodeId
    let language := jDisplay (jget fileNode.properties "language")
    contentHeader filePath fileNode ++ importsSection imports ++
      classesSection gb classes ++ functionsSection gb language functions ++
      sourceSection language sourceCode

/-- `part.replace(/\.[^.]+$/, '')`: strip a final dot-extension. -/
def stripLastExt (part : String) : String :=
  let rev := part.data.reverse
  let afterDot := rev.takeWhile (fun c => c ≠ '.')
  if 1 ≤ afterDot.length && afterDot.length < rev.length then
    String.mk ((rev.drop (afterDot.length + 1)).reverse)
  else part

/-- `[...new Set(xs)]`: de-duplication keeping first occurrences in order. -/
def dedupFirst : List String → List String
  | [] => []
  | a :: rest => a :: dedupFirst (rest.filter (fun x => x ≠ a))
termination_by l => l.length
decreasing_by
  simp only [List.length_cons]
  have := List.length_filter_le (fun x => x ≠ a) rest
  omega

structure MemMetadata where
  filePath : String
  language : String
  topics : List String
  emojiTags : List String
deriving DecidableEq, Repr

/-- `GraphBuilder.generateMetadata(filePath)`. -/
def GraphBuilder.generateMetadata (gb : GraphBuilder) (filePath : String) : MemMetadata :=
  match fileNodeOf gb filePath with
  | none =>
    { filePath := filePath, language := "unknown", topics := ["code"], emojiTags := [] }
  | some fileNode =>
    let language := jDisplay (jget fileNode.properties "language")
    let pathTopics := (filePath.splitOn "/").filterMap (fun part =>
      if !part.isEmpty && part ≠ ".." && part ≠ "." && !part.startsWith "." then
        some (stripLastExt part)
      else none)
    let hasClasses := gb.nodes.any (fun n =>
      n.label == "Class" && definedInFile gb fileNode.id n)
    let hasFunctions := gb.nodes.any (fun n =>
      n.label == "Function" && definedInFile gb fileNode.id n)
    let topics := ["code", language] ++ pathTopics ++
      (if hasClasses then ["classes"] else []) ++
      (if hasFunctions then ["functions"] else [])
    let emojiTags := ["💻", "📄"] ++
      (if language = "python" then ["🐍"] else []) ++
      (if language = "javascript" then ["🟨"] else []) ++
      (if language = "typescript" then ["🔷"] else [])
    { filePath := filePath, language := language,
      topics := (dedupFirst topics).take 10, emojiTags := emojiTags }

/-! ## index.js (`CodeIndexer`)

The external collaborators appear as explicit per-run and per-file inputs:
`schemaInitOk` is the outcome of `SchemaManager.initializeSchema` (false
when the PAPR credential is missing or the registry is unreachable),
`read`/`parse` are the file-system and tree-sitter outcomes, and `publish`
is the object `paprClient.addCodeMemory` returns.  `addCodeMemory` never
throws: its whole body sits in a try/catch whose catch returns
`{success: false, error: message}` (in particular the missing-credential
throw of `getClient` is caught there), so `publish` is the pair
`(result.success, result.error)`. -/

structure FileEnv where
  path : String
  read : Except String String
  parse : Except String TSNode
  publish : Bool × Option String
  now : String

inductive IndexOutcome where
  | success (path : String)
  | skipped (path reason : String)
  | failed (path : String) (error : Option String)
deriving DecidableEq, Repr

inductive IndexEvent where
  | parsedFile (path : String)
  | publishedFile (path : String)
deriving DecidableEq, Repr

/-- `CodeIndexer.initialize()`: returns a success flag and never throws; on
failure `this.initialized` stays false. -/
def indexerInitialize (schemaInitOk : Bool) (initialized : Bool) : Bool × Bool :=
  if initialized then (true, initialized)
  else if schemaInitOk then (true, true)
  else (false, initialized)

/-- `CodeIndexer.indexFile(filePath, options)`.  The returned events record
which external effects (successful parse, publish call) happened.  The
result of the `initialize()` call is ignored, exactly as in the source. -/
def indexFile (schemaInitOk : Bool) (includeTests includeGenerated : Bool)
    (initialized : Bool) (f : FileEnv) : IndexOutcome × List IndexEvent × Bool :=
  let st := (indexerInitialize schemaInitOk initialized).2
  if !shouldIndexFile f.path includeTests includeGenerated then
    (IndexOutcome.skipped f.path "File filtered out (test/generated/ignored)", [], st)
  else
    match detectLanguage f.path with
    | none => (IndexOutcome.skipped f.path "Unsupported language", [], st)
    | some language =>
      if language ≠ "python" then
        (IndexOutcome.skipped f.path ("No parser available for " ++ language), [], st)
      else
        match f.read with
        | Except.error e => (IndexOutcome.failed f.path (some e), [], st)
        | Except.ok content =>
          match parseFile f.path content f.parse f.now with
          | Except.error e => (IndexOutcome.failed f.path (some e), [], st)
          | Except.ok parseResult =>
            let gb := (GraphBuilder.empty.addNodes parseResult.nodes).addRelationships
              parseResult.relationships
            let memoryContent := gb.generateMemoryContent f.path (some content)
            let metadata := gb.generateMetadata f.path
            let _ := (memoryContent, metadata, gb.buildGraphOverride)
            let result := f.publish
            if result.1 then
              (IndexOutcome.success f.path,
               [IndexEvent.parsedFile f.path, IndexEvent.publishedFile f.path], st)
            else
              -- the publish-result return of `indexFile` has no `error`
              -- field: `result.error` (here `result.2`) is dropped
              (IndexOutcome.failed f.path none,
               [IndexEvent.parsedFile f.path, IndexEvent.publishedFile f.path], st)

structure IndexSummary where
  success : Nat
  failed : Nat
  skipped : Nat
  errors : List (String × Option String)
  indexed : List String
deriving DecidableEq, Repr

def IndexSummary.empty : IndexSummary :=
  { success := 0, failed := 0, skipped := 0, errors := [], indexed := [] }

/-- The per-file bookkeeping of the `indexFiles` loop. -/
def recordOutcome (s : IndexSummary) : IndexOutcome → IndexSummary
  | IndexOutcome.success p => { s with success := s.success + 1, indexed := s.indexed ++ [p] }
  | IndexOutcome.skipped _ _ => { s with skipped := s.skipped + 1 }
  | IndexOutcome.failed p e => { s with failed := s.failed + 1, errors := s.errors ++ [(p, e)] }

/-- One iteration of the `indexFiles` loop: index the file, record its
outcome, keep the event log and the initialization flag. -/
def indexFilesStep (schemaInitOk includeTests includeGenerated : Bool)
    (acc : IndexSummary × List IndexEvent × Bool) (f : FileEnv) :
    IndexSummary × List IndexEvent × Bool :=
  let r := indexFile schemaInitOk includeTests includeGenerated acc.2.2 f
  (recordOutcome acc.1 r.1, acc.2.1 ++ r.2.1, r.2.2)

/-- `CodeIndexer.indexFiles(filePaths, options)`: sequential fold over the
batch; a failed file is recorded and the loop continues. -/
def indexFiles (schemaInitOk : Bool) (includeTests includeGenerated : Bool)
    (files : List FileEnv) : IndexSummary × List IndexEvent :=
  let r := files.foldl (indexFilesStep schemaInitOk includeTests includeGenerated)
    (IndexSummary.empty, [], false)
  (r.1, r.2.1)

/-! ## Specification-side characterizations

These definitions state the claims' vocabulary (first-wins merge, the calls
actually keyed, declared bases, lowercase ID alphabet); the theorems compare
them with the embedded source functions above. -/

/-- First occurrence per ID wins; later duplicates are dropped. -/
def firstWinsAux (seen : List String) : List GNode → List GNode
  | [] => []
  | n :: rest =>
    if seen.contains n.id then firstWinsAux seen rest
    else n :: firstWinsAux (n.id :: seen) rest

def firstWins (ns : List GNode) : List GNode := firstWinsAux [] ns

/-- The call expressions textually inside a body whose callee is a bare
identifier, each keyed by the callee's text and its line. -/
def identifierCallees (body : TSNode) : List (String × Nat) :=
  ((tsWalk none body).filter (fun m => isCallMatch m.1)).filterMap (fun m =>
    (m.1.childForField "function").map (fun c => (c.text, m.1.startRow + 1)))

/-- The declared base classes of a superclasses argument list: every child
that is not punctuation. -/
def declaredBases (basesNode : TSNode) : List TSNode :=
  basesNode.children.filterMap (fun c =>
    if c.2.type = "(" ∨ c.2.type = ")" ∨ c.2.type = "," then none else some c.2)

/-- The alphabet a sanitized ID may use: lowercase letters, digits,
underscore, hyphen. -/
def isLowerIdChar (c : Char) : Bool :=
  (97 ≤ c.toNat && c.toNat ≤ 122) || (48 ≤ c.toNat && c.toNat ≤ 57) ||
    c.toNat = 95 || c.toNat = 45

/-- No two adjacent underscores. -/
def NoTwoU (a b : Char) : Prop := ¬(a = '_' ∧ b = '_')

/-- The error message `getClient` throws when the credential is missing. -/
def missingKeyError : String := "PAPR_MEMORY_API_KEY environment variable is required"

/-- A file that survives the filters, has the Python parser, and whose read
and parse succeed, so that `indexFile` reaches the publish call. -/
def reachesPublish (includeTests includeGenerated : Bool) (f : FileEnv) : Bool :=
  shouldIndexFile f.path includeTests includeGenerated &&
    (match detectLanguage f.path with
     | some l => l == "python"
     | none => false) &&
    (match f.read with
     | Except.ok _ => true
     | Except.error _ => false) &&
    (match f.parse with
     | Except.ok _ => true
     | Except.error _ => false)

/-! ## Concrete instances used by counterexamples and witnesses -/

def tsLeaf (ty txt : String) (r : Nat) : TSNode := TSNode.mk ty txt r r []

def emptyModule : TSNode := TSNode.mk "module" "" 0 0 []

/-- `g()` as a call expression at row `r`. -/
def callGNode (r : Nat) : TSNode :=
  TSNode.mk "call" "g()" r r
    [(some "function", tsLeaf "identifier" "g" r),
     (some "arguments", tsLeaf "argument_list" "()" r)]

/-- `def f():` whose body calls `g()` (rows 0-1). -/
def funcFTree : TSNode :=
  TSNode.mk "function_definition" "def f():\n    g()" 0 1
    [(some "name", tsLeaf "identifier" "f" 0),
     (some "parameters", tsLeaf "parameters" "()" 0),
     (some "body", TSNode.mk "block" "g()" 1 1
       [(none, TSNode.mk "expression_statement" "g()" 1 1 [(none, callGNode 1)])])]

/-- Module of `a.py`: a single function `f` that calls `g`. -/
def treeCallerA : TSNode := TSNode.mk "module" "def f():\n    g()" 0 1 [(none, funcFTree)]

/-- Module of `b.py`: the definition of `g` (rows 0-1). -/
def treeDefB : TSNode :=
  TSNode.mk "module" "def g():\n    pass" 0 1
    [(none, TSNode.mk "function_definition" "def g():\n    pass" 0 1
      [(some "name", tsLeaf "identifier" "g" 0),
       (some "parameters", tsLeaf "parameters" "()" 0),
       (some "body", TSNode.mk "block" "pass" 1 1 [(none, tsLeaf "pass_statement" "pass" 1)])])]

/-- Module with one `import os` statement. -/
def treeImp : TSNode :=
  TSNode.mk "module" "import os" 0 0
    [(none, TSNode.mk "import_statement" "import os" 0 0
      [(some "name", tsLeaf "dotted_name" "os" 0)])]

/-- `class A(B, C):` with method `m` calling `g()`, then `import os` and
`from x import a` — the end-to-end example shape of the specification. -/
def pyTreeA : TSNode :=
  TSNode.mk "module" "" 0 4
    [(none, TSNode.mk "class_definition" "class A(B, C): ..." 0 2
      [(some "name", tsLeaf "identifier" "A" 0),
       (some "superclasses", TSNode.mk "argument_list" "(B, C)" 0 0
         [(none, tsLeaf "(" "(" 0), (none, tsLeaf "identifier" "B" 0),
          (none, tsLeaf "," "," 0), (none, tsLeaf "identifier" "C" 0),
          (none, tsLeaf ")" ")" 0)]),
       (some "body", TSNode.mk "block" "..." 1 2
         [(none, TSNode.mk "function_definition" "def m(self):\n        g()" 1 2
           [(some "name", tsLeaf "identifier" "m" 1),
            (some "parameters", tsLeaf "parameters" "(self)" 1),
            (some "body", TSNode.mk "block" "g()" 2 2
              [(none, TSNode.mk "expression_statement" "g()" 2 2
                [(none, callGNode 2)])])])])]),
     (none, TSNode.mk "import_statement" "import os" 3 3
       [(some "name", tsLeaf "dotted_name" "os" 3)]),
     (none, TSNode.mk "import_from_statement" "from x import a" 4 4
       [(some "module_name", tsLeaf "dotted_name" "x" 4),
        (some "name", tsLeaf "dotted_name" "a" 4)])]

/-- A body whose only call is a method call `self.m()`: the callee is an
attribute, not a bare identifier. -/
def attrCallBody : TSNode :=
  TSNode.mk "block" "self.m()" 1 1
    [(none, TSNode.mk "expression_statement" "self.m()" 1 1
      [(none, TSNode.mk "call" "self.m()" 1 1
        [(some "function", tsLeaf "attribute" "self.m" 1),
         (some "arguments", tsLeaf "argument_list" "()" 1)])])]

/-- `(Generic[T])`: a superclasses list whose single declared base is a
subscript expression. -/
def basesSub : TSNode :=
  TSNode.mk "argument_list" "(Generic[T])" 0 0
    [(none, tsLeaf "(" "(" 0), (none, tsLeaf "subscript" "Generic[T]" 0),
     (none, tsLeaf ")" ")" 0)]

/-- `class A(Generic[T]): pass`. -/
def treeSubBase : TSNode :=
  TSNode.mk "module" "class A(Generic[T]): pass" 0 0
    [(none, TSNode.mk "class_definition" "class A(Generic[T]): pass" 0 0
      [(some "name", tsLeaf "identifier" "A" 0),
       (some "superclasses", basesSub),
       (some "body", TSNode.mk "block" "pass" 0 0 [(none, tsLeaf "pass_statement" "pass" 0)])])]

/-- The File node of the 15-import fixture. -/
def fileNode15 : GNode :=
  { id := "file_m_py", label := "File",
    properties :=
      [("path", JVal.jstr "m.py"), ("language", JVal.jstr "python"),
       ("size", JVal.jnum 10), ("hash", JVal.jstr "abcd1234ef"),
       ("lastModified", JVal.jstr "T")] }

def imp15 (k : Nat) : GNode :=
  { id := "import_m_py_mod" ++ toString k, label := "Import",
    properties :=
      [("moduleName", JVal.jstr ("mod" ++ toString k)),
       ("line", JVal.jnum (Int.ofNat (k + 1)))] }

/-- A builder holding one File node and 15 Import nodes, each linked to the
File node by an `IMPORTS` relationship. -/
def gb15 : GraphBuilder :=
  (GraphBuilder.empty.addNodes (fileNode15 :: (List.range 15).map imp15)).addRelationships
    ((List.range 15).map (fun k =>
      createRelationship "file_m_py" ("import_m_py_mod" ++ toString k) "IMPORTS"))

/-- A well-formed Python file environment that indexes successfully. -/
def okEnv (p : String) : FileEnv :=
  { path := p, read := Except.ok "src", parse := Except.ok pyTreeA,
    publish := (true, none), now := "T" }

/-- A Python file whose tree-sitter parse throws a syntax error. -/
def badEnv (p : String) : FileEnv :=
  { path := p, read := Except.ok "src", parse := Except.error "syntax error at line 2",
    publish := (true, none), now := "T" }

/-- A Python file in a run whose PAPR credential is missing: `getClient`
throws inside `addCodeMemory`, whose catch returns
`{success: false, error: missingKeyError}`. -/
def noKeyEnv (p : String) : FileEnv :=
  { path := p, read := Except.ok "x = 1", parse := Except.ok emptyModule,
    publish := (false, some missingKeyError), now := "T" }

/-- Property map of the C1 example. -/
def c1props : JProps :=
  [("filePath", JVal.jstr "a.py"), ("name", JVal.jstr "f"), ("startLine", JVal.jnum 3)]

/-- Same key fields in a different insertion order with an extra non-key
property. -/
def c1propsVariant : JProps :=
  [("startLine", JVal.jnum 3), ("filePath", JVal.jstr "a.py"),
   ("name", JVal.jstr "f"), ("endLine", JVal.jnum 9)]

/-! ## Lemmas about the sanitizer pipeline -/

theorem mem_replaceSpecial {c : Char} {cs : List Char} (h : c ∈ replaceSpecial cs) :
    isIdChar c = true := by
  unfold replaceSpecial at h
  obtain ⟨a, _, ha⟩ := List.mem_map.mp h
  by_cases hid : isIdChar a
  · rw [if_pos hid] at ha
    exact ha ▸ hid
  · rw [if_neg hid] at ha
    rw [← ha]
    decide

theorem mem_collapseUnderscores {c : Char} :
    ∀ {cs : List Char}, c ∈ collapseUnderscores cs → c ∈ cs
  | [], h => by simpa [collapseUnderscores] using h
  | [a], h => by simpa [collapseUnderscores] using h
  | a :: b :: rest, h => by
    unfold collapseUnderscores at h
    by_cases hab : a = '_' && b = '_'
    · rw [if_pos hab] at h
      exact List.mem_cons_of_mem a (mem_collapseUnderscores h)
    · rw [if_neg hab] at h
      rcases List.mem_cons.mp h with h1 | h2
      · exact h1 ▸ List.mem_cons_self c (b :: rest)
      · exact List.mem_cons_of_mem a (mem_collapseUnderscores h2)

theorem collapseUnderscores_cons (a : Char) :
    ∀ (rest : List Char), ∃ t, collapseUnderscores (a :: rest) = a :: t
  | [] => ⟨[], rfl⟩
  | b :: rest => by
    unfold collapseUnderscores
    by_cases hab : a = '_' && b = '_'
    · rw [if_pos hab]
      obtain ⟨t, ht⟩ := collapseUnderscores_cons b rest
      refine ⟨t, ?_⟩
      rw [ht]
      have : a = b := by
        have h1 := (Bool.and_eq_true _ _).mp hab
        have ha : a = '_' := by simpa using h1.1
        have hb : b = '_' := by simpa using h1.2
        rw [ha, hb]
      rw [this]
    · rw [if_neg hab]
      exact ⟨collapseUnderscores (b :: rest), rfl⟩

theorem chain'_collapseUnderscores :
    ∀ (cs : List Char), (collapseUnderscores cs).Chain' NoTwoU
  | [] => by simp [collapseUnderscores]
  | [a] => by simp [collapseUnderscores]
  | a :: b :: rest => by
    unfold collapseUnderscores
    by_cases hab : a = '_' && b = '_'
    · rw [if_pos hab]
      exact chain'_collapseUnderscores (b :: rest)
    · rw [if_neg hab]
      obtain ⟨t, ht⟩ := collapseUnderscores_cons b rest
      rw [ht]
      refine List.chain'_cons.mpr ⟨?_, ht ▸ chain'_collapseUnderscores (b :: rest)⟩
      intro hcon
      exact hab (by simp [hcon.1, hcon.2])

theorem chain'_dropWhile {R : Char → Char → Prop} {p : Char → Bool} :
    ∀ {cs : List Char}, cs.Chain' R → (cs.dropWhile p).Chain' R
  | [], _ => by simp [List.dropWhile]
  | a :: rest, h => by
    rw [List.dropWhile_cons]
    by_cases hp : p a
    · simp only [hp, if_true]
      exact chain'_dropWhile (List.Chain'.tail h)
    · simp only [hp, if_false]
      exact h

theorem head?_dropWhile_underscore :
    ∀ (cs : List Char), (cs.dropWhile (fun c => c = '_')).head? ≠ some '_'
  | [] => by simp [List.dropWhile]
  | a :: rest => by
    rw [List.dropWhile_cons]
    by_cases ha : a = '_'
    · have hd : (decide (a = '_')) = true := by simpa using ha
      simp only [hd, if_true]
      exact head?_dropWhile_underscore rest
    · have : (decide (a = '_')) = false := by simpa using ha
      simp only [this, if_false, List.head?_cons]
      intro h
      exact ha (by simpa using h)

theorem getLast?_dropWhile_underscore :
    ∀ (cs : List Char), cs.getLast? ≠ some '_' →
      (cs.dropWhile (fun c => c = '_')).getLast? ≠ some '_'
  | [], h => by simpa [List.dropWhile] using h
  | a :: rest, h => by
    rw [List.dropWhile_cons]
    by_cases ha : a = '_'
    · have hd : (decide (a = '_')) = true := by simpa using ha
      simp only [hd, if_true]
      refine getLast?_dropWhile_underscore rest ?_
      cases rest with
      | nil => simp
      | cons b rs =>
        rw [List.getLast?_cons_cons] at h
        exact h
    · have : (decide (a = '_')) = false := by simpa using ha
      simp only [this, if_false]
      exact h

theorem mem_trimUnderscores {c : Char} {cs : List Char} (h : c ∈ trimUnderscores cs) :
    c ∈ cs := by
  unfold trimUnderscores at h
  rw [List.mem_reverse] at h
  have h2 := (List.dropWhile_sublist _).mem h
  rw [List.mem_reverse] at h2
  exact (List.dropWhile_sublist _).mem h2

theorem head?_trimUnderscores (cs : List Char) :
    (trimUnderscores cs).head? ≠ some '_' := by
  unfold trimUnderscores
  rw [List.head?_reverse]
  refine getLast?_dropWhile_underscore _ ?_
  rw [List.getLast?_reverse]
  exact head?_dropWhile_underscore cs

theorem getLast?_trimUnderscores (cs : List Char) :
    (trimUnderscores cs).getLast? ≠ some '_' := by
  unfold trimUnderscores
  rw [List.getLast?_reverse]
  exact head?_dropWhile_underscore _

theorem chain'_reverse_NoTwoU {cs : List Char} (h : cs.Chain' NoTwoU) :
    cs.reverse.Chain' NoTwoU := by
  rw [List.chain'_reverse]
  exact h.imp (fun a b hab => fun hc => hab ⟨hc.2, hc.1⟩)

theorem chain'_trimUnderscores {cs : List Char} (h : cs.Chain' NoTwoU) :
    (trimUnderscores cs).Chain' NoTwoU := by
  unfold trimUnderscores
  exact chain'_reverse_NoTwoU (chain'_dropWhile (chain'_reverse_NoTwoU (chain'_dropWhile h)))

theorem char_toNat_ofNat {n : Nat} (h : n.isValidChar) : (Char.ofNat n).toNat = n := by
  unfold Char.ofNat
  rw [dif_pos h]
  rfl

theorem toLower_eq_underscore {a : Char} (h : Char.toLower a = '_') : a = '_' := by
  unfold Char.toLower at h
  by_cases hr : a.toNat ≥ 65 ∧ a.toNat ≤ 90
  · rw [if_pos hr] at h
    have hv : (a.toNat + 32).isValidChar := Or.inl (by omega)
    have h2 := char_toNat_ofNat hv
    rw [h] at h2
    have h3 : ('_' : Char).toNat = 95 := rfl
    omega
  · rw [if_neg hr] at h
    exact h

theorem isLowerIdChar_toLower {a : Char} (h : isIdChar a = true) :
    isLowerIdChar (Char.toLower a) = true := by
  have h0 := h
  simp only [isIdChar, Bool.or_eq_true, Bool.and_eq_true, decide_eq_true_eq] at h0
  have h' : (97 ≤ a.toNat ∧ a.toNat ≤ 122) ∨ (65 ≤ a.toNat ∧ a.toNat ≤ 90) ∨
      (48 ≤ a.toNat ∧ a.toNat ≤ 57) ∨ a.toNat = 95 ∨ a.toNat = 45 := by tauto
  unfold Char.toLower
  by_cases h65 : a.toNat ≥ 65 ∧ a.toNat ≤ 90
  · rw [if_pos h65]
    have hv : (a.toNat + 32).isValidChar := Or.inl (by omega)
    have ht := char_toNat_ofNat hv
    simp only [isLowerIdChar, ht, Bool.or_eq_true, Bool.and_eq_true, decide_eq_true_eq]
    omega
  · rw [if_neg h65]
    simp only [isLowerIdChar, Bool.or_eq_true, Bool.and_eq_true, decide_eq_true_eq]
    omega

/-- C10: `sanitizeForId` is total: falsy inputs (null/undefined/empty) map to
the literal `unknown`; every other input yields a string over lowercase
letters, digits, underscores and hyphens that neither begins nor ends with
an underscore and has no two consecutive underscores; the result may be
empty (e.g. for an underscores-only input). -/
theorem claim_C10_sanitize_total :
    sanitizeForId none = "unknown" ∧ sanitizeForId (some "") = "unknown" ∧
    sanitizeForId (some "___") = "" ∧
    ∀ s : String, s ≠ "" →
      (∀ c ∈ (sanitizeForId (some s)).data, isLowerIdChar c = true) ∧
      (sanitizeForId (some s)).data.head? ≠ some '_' ∧
      (sanitizeForId (some s)).data.getLast? ≠ some '_' ∧
      (sanitizeForId (some s)).data.Chain' NoTwoU := by
  refine ⟨rfl, rfl, by decide, ?_⟩
  intro s hs
  have hne : s.isEmpty = false := by
    rw [Bool.eq_false_iff]
    intro h
    exact hs ((String.isEmpty_iff s).mp h)
  have hdata : (sanitizeForId (some s)).data =
      (trimUnderscores (collapseUnderscores (replaceSpecial s.data))).map Char.toLower := by
    simp [sanitizeForId, hne, lowerChars]
  refine ⟨?_, ?_, ?_, ?_⟩
  · intro c hc
    rw [hdata] at hc
    obtain ⟨a, ha, rfl⟩ := List.mem_map.mp hc
    exact isLowerIdChar_toLower
      (mem_replaceSpecial (mem_collapseUnderscores (mem_trimUnderscores ha)))
  · rw [hdata, List.head?_map]
    intro h
    obtain ⟨a, ha, hfa⟩ := Option.map_eq_some'.mp h
    have hne2 := head?_trimUnderscores (collapseUnderscores (replaceSpecial s.data))
    rw [ha] at hne2
    exact hne2 (by rw [toLower_eq_underscore hfa])
  · rw [hdata, List.getLast?_map]
    intro h
    obtain ⟨a, ha, hfa⟩ := Option.map_eq_some'.mp h
    have hne2 := getLast?_trimUnderscores (collapseUnderscores (replaceSpecial s.data))
    rw [ha] at hne2
    exact hne2 (by rw [toLower_eq_underscore hfa])
  · rw [hdata]
    refine (List.chain'_map Char.toLower).mpr ?_
    refine (chain'_trimUnderscores (chain'_collapseUnderscores _)).imp ?_
    intro a b hab hc
    exact hab ⟨toLower_eq_underscore hc.1, toLower_eq_underscore hc.2⟩

theorem claim_C10_witness :
    ("Hello,  World.PY" : String) ≠ "" ∧
    ((∀ c ∈ (sanitizeForId (some "Hello,  World.PY")).data, isLowerIdChar c = true) ∧
      (sanitizeForId (some "Hello,  World.PY")).data.head? ≠ some '_' ∧
      (sanitizeForId (some "Hello,  World.PY")).data.getLast? ≠ some '_' ∧
      (sanitizeForId (some "Hello,  World.PY")).data.Chain' NoTwoU) :=
  ⟨by decide, claim_C10_sanitize_total.2.2.2 "Hello,  World.PY" (by decide)⟩

/-! ## C1: deterministic node identity -/

/-- C1: `generateNodeId` is a pure function of `(label, properties)` whose
result depends only on the label's key fields after sanitization; in
particular the Function example composes to the literal `func_a_py_f_3`,
and two calls agreeing on a label's key properties return equal IDs. -/
theorem claim_C1_generateNodeId_deterministic :
    generateNodeId "Function" c1props = "func_a_py_f_3" ∧
    (∀ p q : JProps, jget p "path" = jget q "path" →
      generateNodeId "File" p = generateNodeId "File" q) ∧
    (∀ p q : JProps, jget p "filePath" = jget q "filePath" →
      jget p "name" = jget q "name" → jget p "startLine" = jget q "startLine" →
      generateNodeId "Function" p = generateNodeId "Function" q) ∧
    (∀ p q : JProps, jget p "filePath" = jget q "filePath" →
      jget p "name" = jget q "name" →
      generateNodeId "Class" p = generateNodeId "Class" q) ∧
    (∀ p q : JProps, jget p "filePath" = jget q "filePath" →
      jget p "moduleName" = jget q "moduleName" →
      generateNodeId "Import" p = generateNodeId "Import" q) ∧
    (∀ p q : JProps, jget p "filePath" = jget q "filePath" →
      jget p "name" = jget q "name" →
      generateNodeId "Export" p = generateNodeId "Export" q) ∧
    (∀ p q : JProps, jget p "filePath" = jget q "filePath" →
      jget p "name" = jget q "name" → jget p "scope" = jget q "scope" →
      jget p "line" = jget q "line" →
      generateNodeId "Variable" p = generateNodeId "Variable" q) ∧
    (∀ p q : JProps, jget p "filePath" = jget q "filePath" →
      jget p "calleeName" = jget q "calleeName" → jget p "line" = jget q "line" →
      generateNodeId "CallSite" p = generateNodeId "CallSite" q) ∧
    (∀ p q : JProps, jget p "filePath" = jget q "filePath" →
      jget p "name" = jget q "name" → jget p "line" = jget q "line" →
      generateNodeId "Decorator" p = generateNodeId "Decorator" q) ∧
    (∀ p q : JProps, jget p "filePath" = jget q "filePath" →
      jget p "startLine" = jget q "startLine" →
      generateNodeId "Comment" p = generateNodeId "Comment" q) ∧
    (∀ p q : JProps, jget p "name" = jget q "name" →
      jget p "version" = jget q "version" →
      generateNodeId "Package" p = generateNodeId "Package" q) ∧
    (∀ (label : String) (p q : JProps), p = q →
      generateNodeId label p = generateNodeId label q) := by
  refine ⟨by decide, ?_, ?_, ?_, ?_, ?_, ?_, ?_, ?_, ?_, ?_, ?_⟩
  · intro p q h1
    simp [generateNodeId, sanitizeProp, jgetStr, h1]
  · intro p q h1 h2 h3
    simp [generateNodeId, sanitizeProp, jgetStr, h1, h2, h3]
  · intro p q h1 h2
    simp [generateNodeId, sanitizeProp, jgetStr, h1, h2]
  · intro p q h1 h2
    simp [generateNodeId, sanitizeProp, jgetStr, h1, h2]
  · intro p q h1 h2
    simp [generateNodeId, sanitizeProp, jgetStr, h1, h2]
  · intro p q h1 h2 h3 h4
    simp [generateNodeId, sanitizeProp, jgetStr, h1, h2, h3, h4]
  · intro p q h1 h2 h3
    simp [generateNodeId, sanitizeProp, jgetStr, h1, h2, h3]
  · intro p q h1 h2 h3
    simp [generateNodeId, sanitizeProp, jgetStr, h1, h2, h3]
  · intro p q h1 h2
    simp [generateNodeId, sanitizeProp, jgetStr, h1, h2]
  · intro p q h1 h2
    simp [generateNodeId, sanitizeProp, jgetStr, h1, h2]
  · intro _ p q h
    rw [h]

theorem claim_C1_witness :
    (jget c1props "filePath" = jget c1propsVariant "filePath" ∧
      jget c1props "name" = jget c1propsVariant "name" ∧
      jget c1props "startLine" = jget c1propsVariant "startLine") ∧
    generateNodeId "Function" c1props = generateNodeId "Function" c1propsVariant ∧
    generateNodeId "Function" c1props = "func_a_py_f_3" :=
  ⟨⟨by decide, by decide, by decide⟩,
   claim_C1_generateNodeId_deterministic.2.2.1 c1props c1propsVariant
     (by decide) (by decide) (by decide),
   claim_C1_generateNodeId_deterministic.1⟩

/-! ## C4: accumulator merge semantics -/

theorem contains_append_str (l1 l2 : List String) (x : String) :
    (l1 ++ l2).contains x = (l1.contains x || l2.contains x) := by
  induction l1 with
  | nil => simp
  | cons a rest ih => simp [List.contains_cons, ih, Bool.or_assoc]

theorem indexHas_eq_contains (idx : List (String × GNode)) (id : String) :
    indexHas idx id = (idx.map Prod.fst).contains id := by
  induction idx with
  | nil => rfl
  | cons p rest ih =>
    by_cases hp : p.1 = id
    · have hd : (decide (p.1 = id)) = true := by simpa using hp
      have hd2 : (id == p.1) = true := by
        simp [BEq.beq]
        exact hp.symm
      simp [indexHas, List.find?_cons, hd, List.map_cons, List.contains_cons, hd2]
    · have hd : (decide (p.1 = id)) = false := by simpa using hp
      have hd2 : (id == p.1) = false := by
        simp [BEq.beq]
        exact fun h => hp h.symm
      simp only [indexHas, List.find?_cons, hd, List.map_cons, List.contains_cons, hd2,
        Bool.false_or]
      exact ih

theorem firstWinsAux_congr :
    ∀ (ns : List GNode) (s1 s2 : List String),
      (∀ x, s1.contains x = s2.contains x) → firstWinsAux s1 ns = firstWinsAux s2 ns
  | [], _, _, _ => rfl
  | n :: rest, s1, s2, h => by
    unfold firstWinsAux
    rw [h n.id]
    by_cases hc : s2.contains n.id
    · rw [if_pos hc, if_pos hc]
      exact firstWinsAux_congr rest s1 s2 h
    · rw [if_neg hc, if_neg hc]
      refine congrArg (n :: ·) (firstWinsAux_congr rest _ _ ?_)
      intro x
      rw [List.contains_cons, List.contains_cons, h x]

theorem addNodes_spec :
    ∀ (ns : List GNode) (gb : GraphBuilder),
      (gb.addNodes ns).nodes = gb.nodes ++ firstWinsAux (gb.nodeIndex.map Prod.fst) ns ∧
      (gb.addNodes ns).nodeIndex.map Prod.fst =
        gb.nodeIndex.map Prod.fst ++ (firstWinsAux (gb.nodeIndex.map Prod.fst) ns).map GNode.id ∧
      (gb.addNodes ns).relationships = gb.relationships
  | [], gb => by simp [GraphBuilder.addNodes, firstWinsAux]
  | n :: rest, gb => by
    have hstep : gb.addNodes (n :: rest) = (addNode gb n).addNodes rest := rfl
    by_cases hc : indexHas gb.nodeIndex n.id
    · have hadd : addNode gb n = gb := by simp [addNode, hc]
      have hcont : (gb.nodeIndex.map Prod.fst).contains n.id = true := by
        rw [← indexHas_eq_contains]; exact hc
      have ih := addNodes_spec rest gb
      rw [hstep, hadd]
      unfold firstWinsAux
      rw [if_pos hcont]
      exact ih
    · have hadd : addNode gb n =
          { gb with nodes := gb.nodes ++ [n], nodeIndex := gb.nodeIndex ++ [(n.id, n)] } := by
        simp [addNode, hc]
      have hcont : (gb.nodeIndex.map Prod.fst).contains n.id = false := by
        rw [← indexHas_eq_contains]; simpa using hc
      have ih := addNodes_spec rest (addNode gb n)
      rw [hadd] at ih
      have hseen : ∀ x, ((gb.nodeIndex ++ [(n.id, n)]).map Prod.fst).contains x =
          (n.id :: gb.nodeIndex.map Prod.fst).contains x := by
        intro x
        simp only [List.map_append, List.map_cons, List.map_nil, contains_append_str,
          List.contains_cons]
        cases h1 : (gb.nodeIndex.map Prod.fst).contains x <;>
          cases h2 : (x == n.id) <;> simp [List.contains_cons, h1, h2]
      have hfw : firstWinsAux ((gb.nodeIndex ++ [(n.id, n)]).map Prod.fst) rest =
          firstWinsAux (n.id :: gb.nodeIndex.map Prod.fst) rest :=
        firstWinsAux_congr rest _ _ hseen
      dsimp only at ih
      have hfw2 : firstWinsAux (List.map Prod.fst (gb.nodeIndex ++ [(n.id, n)])) rest =
          firstWinsAux (n.id :: gb.nodeIndex.map Prod.fst) rest := by
        refine firstWinsAux_congr rest _ _ ?_
        intro x
        have := hseen x
        simpa using this
      rw [hfw2] at ih
      rw [hstep, hadd]
      show _ ∧ _ ∧ _
      have hfwcons : firstWinsAux (gb.nodeIndex.map Prod.fst) (n :: rest) =
          n :: firstWinsAux (n.id :: gb.nodeIndex.map Prod.fst) rest := by
        have heq : firstWinsAux (gb.nodeIndex.map Prod.fst) (n :: rest) =
            if (gb.nodeIndex.map Prod.fst).contains n.id then
              firstWinsAux (gb.nodeIndex.map Prod.fst) rest
            else n :: firstWinsAux (n.id :: gb.nodeIndex.map Prod.fst) rest := rfl
        rw [heq, if_neg (by rw [hcont]; exact Bool.false_ne_true)]
      rw [hfwcons]
      refine ⟨?_, ?_, ?_⟩
      · rw [ih.1]
        simp
      · rw [ih.2.1]
        simp
      · exact ih.2.2

theorem firstWinsAux_nodup :
    ∀ (ns : List GNode) (seen : List String),
      ((firstWinsAux seen ns).map GNode.id).Nodup ∧
      ∀ n ∈ firstWinsAux seen ns, seen.contains n.id = false
  | [], _ => by simp [firstWinsAux]
  | n :: rest, seen => by
    unfold firstWinsAux
    by_cases hc : seen.contains n.id
    · rw [if_pos hc]
      exact firstWinsAux_nodup rest seen
    · rw [if_neg hc]
      have ih := firstWinsAux_nodup rest (n.id :: seen)
      constructor
      · simp only [List.map_cons, List.nodup_cons]
        refine ⟨?_, ih.1⟩
        intro hmem
        obtain ⟨m, hm, hme⟩ := List.mem_map.mp hmem
        have := ih.2 m hm
        rw [List.contains_cons] at this
        simp [hme] at this
      · intro m hm
        rcases List.mem_cons.mp hm with rfl | hm2
        · simpa using hc
        · have := ih.2 m hm2
          rw [List.contains_cons] at this
          exact (Bool.or_eq_false_iff.mp this).2

theorem indexHas_addNode_mono {gb : GraphBuilder} {n : GNode} {x : String}
    (h : indexHas gb.nodeIndex x = true) : indexHas (addNode gb n).nodeIndex x = true := by
  unfold addNode
  by_cases hc : indexHas gb.nodeIndex n.id
  · rw [if_pos hc]; exact h
  · rw [if_neg hc]
    rw [indexHas_eq_contains] at h ⊢
    simp only [List.map_append, contains_append_str, h, Bool.true_or]

theorem indexHas_addNodes_mono :
    ∀ (ns : List GNode) (gb : GraphBuilder) (x : String),
      indexHas gb.nodeIndex x = true → indexHas (gb.addNodes ns).nodeIndex x = true
  | [], _, _, h => h
  | n :: rest, gb, x, h =>
    indexHas_addNodes_mono rest (addNode gb n) x (indexHas_addNode_mono h)

theorem indexHas_addNodes_of_mem :
    ∀ (ns : List GNode) (gb : GraphBuilder) (n : GNode), n ∈ ns →
      indexHas (gb.addNodes ns).nodeIndex n.id = true
  | m :: rest, gb, n, h => by
    rcases List.mem_cons.mp h with rfl | h2
    · refine indexHas_addNodes_mono rest (addNode gb n) n.id ?_
      unfold addNode
      by_cases hc : indexHas gb.nodeIndex n.id
      · rw [if_pos hc]; exact hc
      · rw [if_neg hc]
        rw [indexHas_eq_contains]
        simp [List.contains_cons, contains_append_str]
    · exact indexHas_addNodes_of_mem rest (addNode gb m) n h2

theorem addNodes_of_all_present :
    ∀ (ns : List GNode) (gb : GraphBuilder),
      (∀ n ∈ ns, indexHas gb.nodeIndex n.id = true) → gb.addNodes ns = gb
  | [], _, _ => rfl
  | n :: rest, gb, h => by
    have hn : addNode gb n = gb := by simp [addNode, h n (List.mem_cons_self n rest)]
    have : gb.addNodes (n :: rest) = (addNode gb n).addNodes rest := rfl
    rw [this, hn]
    exact addNodes_of_all_present rest gb (fun m hm => h m (List.mem_cons_of_mem n hm))

theorem foldl_addNodes_flatten :
    ∀ (batches : List (List GNode)) (gb : GraphBuilder),
      batches.foldl GraphBuilder.addNodes gb = gb.addNodes batches.flatten
  | [], _ => rfl
  | b :: bs, gb => by
    have h1 : (b :: bs).foldl GraphBuilder.addNodes gb =
        bs.foldl GraphBuilder.addNodes (gb.addNodes b) := rfl
    rw [h1, foldl_addNodes_flatten bs (gb.addNodes b)]
    show (gb.addNodes b).addNodes bs.flatten = gb.addNodes (b ++ bs.flatten)
    unfold GraphBuilder.addNodes
    rw [List.foldl_append]

/-- C4: across any sequence of `addNodes` calls the accumulated node list is
the first-wins de-duplication by ID of everything added (so it has no
duplicate IDs and keeps, for each ID, the first node added with it);
re-adding the same nodes is a no-op; `addRelationships` appends
unconditionally, retaining duplicates. -/
theorem claim_C4_accumulator :
    (∀ batches : List (List GNode),
      (batches.foldl GraphBuilder.addNodes GraphBuilder.empty).nodes =
        firstWins batches.flatten ∧
      ((batches.foldl GraphBuilder.addNodes GraphBuilder.empty).nodes.map GNode.id).Nodup) ∧
    (∀ (gb : GraphBuilder) (ns : List GNode),
      (gb.addNodes ns).addNodes ns = gb.addNodes ns) ∧
    (∀ (gb : GraphBuilder) (rs : List GRel),
      (gb.addRelationships rs).relationships = gb.relationships ++ rs) := by
  refine ⟨?_, ?_, fun _ _ => rfl⟩
  · intro batches
    rw [foldl_addNodes_flatten]
    have h := addNodes_spec batches.flatten GraphBuilder.empty
    have he : GraphBuilder.empty.nodes = [] := rfl
    have hei : GraphBuilder.empty.nodeIndex.map Prod.fst = ([] : List String) := rfl
    rw [he, hei] at h
    refine ⟨by simpa [firstWins] using h.1, ?_⟩
    rw [h.1]
    simpa [firstWins] using (firstWinsAux_nodup batches.flatten []).1
  · intro gb ns
    exact addNodes_of_all_present ns (gb.addNodes ns)
      (fun n hn => indexHas_addNodes_of_mem ns gb n hn)

/-! ## C5: partial-failure tolerance of the batch loop -/

theorem recordOutcome_counts (s : IndexSummary) (o : IndexOutcome) :
    (recordOutcome s o).success + (recordOutcome s o).failed + (recordOutcome s o).skipped =
      s.success + s.failed + s.skipped + 1 := by
  cases o <;> simp [recordOutcome] <;> omega

theorem recordOutcome_errors (s : IndexSummary) (o : IndexOutcome)
    (h : s.errors.length = s.failed) :
    (recordOutcome s o).errors.length = (recordOutcome s o).failed := by
  cases o <;> simp [recordOutcome, h]

theorem indexFiles_counts_foldl (so it ig : Bool) :
    ∀ (files : List FileEnv) (acc : IndexSummary × List IndexEvent × Bool),
      (files.foldl (indexFilesStep so it ig) acc).1.success +
        (files.foldl (indexFilesStep so it ig) acc).1.failed +
        (files.foldl (indexFilesStep so it ig) acc).1.skipped =
      acc.1.success + acc.1.failed + acc.1.skipped + files.length
  | [], acc => by simp
  | f :: rest, acc => by
    have h1 : (f :: rest).foldl (indexFilesStep so it ig) acc =
        rest.foldl (indexFilesStep so it ig) (indexFilesStep so it ig acc f) := rfl
    rw [h1, indexFiles_counts_foldl so it ig rest (indexFilesStep so it ig acc f)]
    have h2 := recordOutcome_counts acc.1
      (indexFile so it ig acc.2.2 f).1
    simp only [indexFilesStep]
    rw [h2]
    simp only [List.length_cons]
    omega

theorem indexFiles_errors_foldl (so it ig : Bool) :
    ∀ (files : List FileEnv) (acc : IndexSummary × List IndexEvent × Bool),
      acc.1.errors.length = acc.1.failed →
      (files.foldl (indexFilesStep so it ig) acc).1.errors.length =
        (files.foldl (indexFilesStep so it ig) acc).1.failed
  | [], _, h => h
  | f :: rest, acc, h => by
    have h1 : (f :: rest).foldl (indexFilesStep so it ig) acc =
        rest.foldl (indexFilesStep so it ig) (indexFilesStep so it ig acc f) := rfl
    rw [h1]
    refine indexFiles_errors_foldl so it ig rest _ ?_
    exact recordOutcome_errors acc.1 _ h

/-- C5: each file of a batch lands in exactly one of the success / failed /
skipped buckets, every failure is recorded in the error list, and the loop
continues after a failure: in a batch of 3 Python files whose middle file
has a syntax error, the summary is success=2, failed=1, skipped=0 and the
error list names the middle file. -/
theorem claim_C5_partial_failure :
    (∀ (so it ig : Bool) (files : List FileEnv),
      (indexFiles so it ig files).1.success + (indexFiles so it ig files).1.failed +
          (indexFiles so it ig files).1.skipped = files.length ∧
      (indexFiles so it ig files).1.errors.length = (indexFiles so it ig files).1.failed) ∧
    (indexFiles true false false [okEnv "a.py", badEnv "b.py", okEnv "c.py"]).1 =
      { success := 2, failed := 1, skipped := 0,
        errors := [("b.py", some "syntax error at line 2")],
        indexed := ["a.py", "c.py"] } := by
  refine ⟨?_, by decide⟩
  intro so it ig files
  constructor
  · have h := indexFiles_counts_foldl so it ig files (IndexSummary.empty, [], false)
    simpa [indexFiles, IndexSummary.empty] using h
  · have h := indexFiles_errors_foldl so it ig files (IndexSummary.empty, [], false) rfl
    simpa [indexFiles] using h

/-! ## C8: the imports cap of the rendered document -/

/-- C8: when a file's graph links more than 10 Import nodes to its File
node, the rendered memory document lists exactly the first 10 of them and
then a literal `... and N more` trailer naming the remaining count (N = 5
for 15 imports, as the witness instantiates). -/
theorem claim_C8_import_cap :
    ∀ (gb : GraphBuilder) (filePath : String) (fileNode : GNode),
      fileNodeOf gb filePath = some fileNode →
      10 < (importsOfFile gb fileNode.id).length →
      gb.generateMemoryContent filePath none =
        contentHeader filePath fileNode ++
          ("## Imports (" ++ toString (importsOfFile gb fileNode.id).length ++ ")\n" ++
            String.join (((importsOfFile gb fileNode.id).take 10).map renderImport) ++
            ("... and " ++ toString ((importsOfFile gb fileNode.id).length - 10) ++ " more\n") ++
            "\n") ++
          classesSection gb (classesOfFile gb fileNode.id) ++
          functionsSection gb (jDisplay (jget fileNode.properties "language"))
            (functionsOfFile gb fileNode.id) ++
          sourceSection (jDisplay (jget fileNode.properties "language")) none ∧
      ((importsOfFile gb fileNode.id).take 10).length = 10 := by
  intro gb fp fn hf h10
  have hpos : (importsOfFile gb fn.id).length > 0 := by omega
  constructor
  · unfold GraphBuilder.generateMemoryContent
    rw [hf]
    show contentHeader fp fn ++ importsSection (importsOfFile gb fn.id) ++
        classesSection gb (classesOfFile gb fn.id) ++
        functionsSection gb (jDisplay (jget fn.properties "language"))
          (functionsOfFile gb fn.id) ++
        sourceSection (jDisplay (jget fn.properties "language")) none = _
    unfold importsSection
    rw [if_pos hpos, if_pos h10]
  · rw [List.length_take]
    omega

theorem claim_C8_witness :
    fileNodeOf gb15 "m.py" = some fileNode15 ∧
    10 < (importsOfFile gb15 fileNode15.id).length ∧
    gb15.generateMemoryContent "m.py" none =
      contentHeader "m.py" fileNode15 ++
        ("## Imports (" ++ toString (importsOfFile gb15 fileNode15.id).length ++ ")\n" ++
          String.join (((importsOfFile gb15 fileNode15.id).take 10).map renderImport) ++
          ("... and " ++ toString ((importsOfFile gb15 fileNode15.id).length - 10) ++ " more\n") ++
          "\n") ++
        classesSection gb15 (classesOfFile gb15 fileNode15.id) ++
        functionsSection gb15 (jDisplay (jget fileNode15.properties "language"))
          (functionsOfFile gb15 fileNode15.id) ++
        sourceSection (jDisplay (jget fileNode15.properties "language")) none ∧
    (importsOfFile gb15 fileNode15.id).length = 15 ∧
    toString ((importsOfFile gb15 fileNode15.id).length - 10) = "5" ∧
    jsIncludes (gb15.generateMemoryContent "m.py" none) "... and 5 more" = true :=
  ⟨by decide, by decide,
   (claim_C8_import_cap gb15 "m.py" fileNode15 (by decide) (by decide)).1,
   by decide, by decide, by decide⟩

/-! ## Shape lemmas for the Python extractors -/

theorem filter_flatten {α : Type} (p : α → Bool) :
    ∀ (xs : List (List α)), xs.flatten.filter p = (xs.map (List.filter p)).flatten
  | [] => rfl
  | l :: rest => by
    simp only [List.flatten_cons, List.filter_append, List.map_cons]
    rw [filter_flatten p rest]

theorem flatten_singleton_map {α β : Type} (f : α → β) :
    ∀ (l : List α), (l.map (fun a => [f a])).flatten = l.map f
  | [] => rfl
  | a :: rest => by
    simp only [List.map_cons, List.flatten_cons, List.singleton_append]
    rw [flatten_singleton_map f rest]

theorem countP_of_imp {α : Type} (p q : α → Bool) (himp : ∀ a, p a = true → q a = true) :
    ∀ (l : List α), l.countP p = (l.filter q).countP p
  | [] => rfl
  | a :: rest => by
    rw [List.filter_cons]
    by_cases hq : q a
    · rw [if_pos hq]
      rw [List.countP_cons, List.countP_cons, countP_of_imp p q himp rest]
    · rw [if_neg hq]
      have hp : p a = false := by
        cases hpa : p a
        · rfl
        · exact absurd (himp a hpa) hq
      rw [List.countP_cons, hp, countP_of_imp p q himp rest]
      simp

theorem mem_extractCalls {b : TSNode} {fp fid : String} {r : GRel}
    (h : r ∈ extractCallsFromFunction (some b) fp fid) :
    r.relationship_type = "CALLS" ∧ r.source_node_id = fid := by
  unfold extractCallsFromFunction at h
  obtain ⟨m, _, hm⟩ := List.mem_filterMap.mp h
  cases hcf : m.1.childForField "function" with
  | none => rw [hcf] at hm; exact absurd hm (by simp)
  | some c =>
    rw [hcf] at hm
    simp only [Option.some.injEq] at hm
    rw [← hm]
    exact ⟨rfl, rfl⟩

theorem mem_extractDecorators {d : TSNode} {fp tid : String} {r : GRel}
    (h : r ∈ extractDecoratorsForNode d fp tid) :
    r.relationship_type = "DECORATED_WITH" ∧ r.source_node_id = tid := by
  unfold extractDecoratorsForNode at h
  obtain ⟨c, _, hc⟩ := List.mem_filterMap.mp h
  by_cases hd : c.2.type = "decorator"
  · rw [if_pos hd] at hc
    cases hn : (match c.2.childForField "name" with
      | some n => some n
      | none => (c.2.children.find? (fun (ch : Option String × TSNode) =>
          ch.2.type = "identifier")).map (fun (p : Option String × TSNode) => p.2)) with
    | none => rw [hn] at hc; exact absurd hc (by simp)
    | some nm =>
      rw [hn] at hc
      simp only [Option.some.injEq] at hc
      rw [← hc]
      exact ⟨rfl, rfl⟩
  · rw [if_neg hd] at hc
    exact absurd hc (by simp)

theorem mem_extractMethods {b : TSNode} {fp cid : String} {r : GRel}
    (h : r ∈ extractMethodsFromClass (some b) fp cid) :
    r.relationship_type = "HAS_METHOD" ∧ r.source_node_id = cid := by
  unfold extractMethodsFromClass at h
  obtain ⟨c, _, hc⟩ := List.mem_filterMap.mp h
  by_cases hd : c.2.type = "function_definition"
  · rw [if_pos hd] at hc
    cases hn : c.2.childForField "name" with
    | none => rw [hn] at hc; exact absurd hc (by simp)
    | some nm =>
      rw [hn] at hc
      simp only [Option.some.injEq] at hc
      rw [← hc]
      exact ⟨rfl, rfl⟩
  · rw [if_neg hd] at hc
    exact absurd hc (by simp)

theorem head_generateNodeId_function (props : JProps) :
    (generateNodeId "Function" props).data.head? = some 'f' := rfl

theorem head_generateNodeId_class (props : JProps) :
    (generateNodeId "Class" props).data.head? = some 'c' := rfl

theorem head_generateNodeId_import (props : JProps) :
    (generateNodeId "Import" props).data.head? = some 'i' := rfl

theorem ne_of_data_head {s t : String} (h : s.data.head? ≠ t.data.head?) : s ≠ t :=
  fun e => h (congrArg (fun x => x.data.head?) e)

theorem processFuncMatch_shape {fp fid : String} {m : TSNode × Option TSNode}
    {n : GNode} {rels : List GRel} (h : processFuncMatch fp fid m = some (n, rels)) :
    n.label = "Function" ∧
    n.id.data.head? = some 'f' ∧
    (∀ r ∈ rels, r.source_node_id = n.id) ∧
    rels.filter (fun r => r.relationship_type == "DEFINED_IN") =
      [createRelationship n.id fid "DEFINED_IN"] ∧
    (∀ r ∈ rels, r.relationship_type = "DEFINED_IN" ∨ r.relationship_type = "CALLS" ∨
      r.relationship_type = "DECORATED_WITH") := by
  unfold processFuncMatch at h
  cases h1 : m.1.childForField "name" with
  | none => rw [h1] at h; exact absurd h (by simp)
  | some nameNode =>
  cases h2 : m.1.childForField "parameters" with
  | none => rw [h1, h2] at h; exact absurd h (by simp)
  | some paramsNode =>
  cases h3 : m.1.childForField "body" with
  | none => rw [h1, h2, h3] at h; exact absurd h (by simp)
  | some bodyNode =>
    rw [h1, h2, h3] at h
    simp only [Option.some.injEq, Prod.mk.injEq] at h
    obtain ⟨hn, hrels⟩ := h
    subst hn
    subst hrels
    refine ⟨rfl, head_generateNodeId_function _, ?_, ?_, ?_⟩
    · intro r hr
      rcases List.mem_cons.mp hr with rfl | hr2
      · rfl
      · rcases List.mem_append.mp hr2 with hc | hd
        · exact (mem_extractCalls hc).2
        · cases h4 : m.2 with
          | none => simp [h4] at hd
          | some p =>
            simp only [h4] at hd
            by_cases h5 : p.type = "decorated_definition"
            · rw [if_pos h5] at hd
              exact (mem_extractDecorators hd).2
            · rw [if_neg h5] at hd
              exact absurd hd (by simp)
    · rw [List.cons_append, List.filter_cons, if_pos (by rfl)]
      simp only [List.cons.injEq]
      refine ⟨trivial, ?_⟩
      rw [List.filter_append]
      rw [List.append_eq_nil]
      constructor
      · rw [List.filter_eq_nil_iff]
        intro r hr
        have := (mem_extractCalls hr).1
        simp [this]
      · rw [List.filter_eq_nil_iff]
        intro r hr
        cases h4 : m.2 with
        | none => simp [h4] at hr
        | some p =>
          simp only [h4] at hr
          by_cases h5 : p.type = "decorated_definition"
          · rw [if_pos h5] at hr
            have := (mem_extractDecorators hr).1
            simp [this]
          · rw [if_neg h5] at hr
            exact absurd hr (by simp)
    · intro r hr
      rcases List.mem_cons.mp hr with rfl | hr2
      · exact Or.inl rfl
      · rcases List.mem_append.mp hr2 with hc | hd
        · exact Or.inr (Or.inl (mem_extractCalls hc).1)
        · cases h4 : m.2 with
          | none => simp [h4] at hd
          | some p =>
            simp only [h4] at hd
            by_cases h5 : p.type = "decorated_definition"
            · rw [if_pos h5] at hd
              exact Or.inr (Or.inr (mem_extractDecorators hd).1)
            · rw [if_neg h5] at hd
              exact absurd hd (by simp)

theorem classRels_shape (cid fid : String) (ext methods : List GRel)
    (hext : ∀ r ∈ ext, r.relationship_type = "EXTENDS" ∧ r.source_node_id = cid)
    (hmeth : ∀ r ∈ methods, r.relationship_type = "HAS_METHOD" ∧ r.source_node_id = cid) :
    (∀ r ∈ createRelationship cid fid "DEFINED_IN" :: ext ++ methods,
      r.source_node_id = cid) ∧
    (createRelationship cid fid "DEFINED_IN" :: ext ++ methods).filter
        (fun r => r.relationship_type == "DEFINED_IN") =
      [createRelationship cid fid "DEFINED_IN"] ∧
    (createRelationship cid fid "DEFINED_IN" :: ext ++ methods).filter
        (fun r => r.relationship_type == "EXTENDS") = ext ∧
    (∀ r ∈ createRelationship cid fid "DEFINED_IN" :: ext ++ methods,
      r.relationship_type = "DEFINED_IN" ∨ r.relationship_type = "EXTENDS" ∨
        r.relationship_type = "HAS_METHOD") := by
  refine ⟨?_, ?_, ?_, ?_⟩
  · intro r hr
    rcases List.mem_cons.mp hr with rfl | hr2
    · rfl
    · rcases List.mem_append.mp hr2 with he | hm
      · exact (hext r he).2
      · exact (hmeth r hm).2
  · rw [List.cons_append, List.filter_cons, if_pos (by rfl)]
    simp only [List.cons.injEq]
    refine ⟨trivial, ?_⟩
    rw [List.filter_append, List.append_eq_nil]
    constructor
    · rw [List.filter_eq_nil_iff]
      intro r hr
      have := (hext r hr).1
      simp [this]
    · rw [List.filter_eq_nil_iff]
      intro r hr
      have := (hmeth r hr).1
      simp [this]
  · rw [List.cons_append, List.filter_cons, if_neg (by simp [createRelationship])]
    rw [List.filter_append]
    have h1 : ext.filter (fun r => r.relationship_type == "EXTENDS") = ext := by
      rw [List.filter_eq_self]
      intro r hr
      simp [(hext r hr).1]
    have h2 : methods.filter (fun r => r.relationship_type == "EXTENDS") = [] := by
      rw [List.filter_eq_nil_iff]
      intro r hr
      simp [(hmeth r hr).1]
    rw [h1, h2, List.append_nil]
  · intro r hr
    rcases List.mem_cons.mp hr with rfl | hr2
    · exact Or.inl rfl
    · rcases List.mem_append.mp hr2 with he | hm
      · exact Or.inr (Or.inl (hext r he).1)
      · exact Or.inr (Or.inr (hmeth r hm).1)

theorem processClassMatch_shape {fp fid : String} {m : TSNode × Option TSNode}
    {n : GNode} {rels : List GRel} (h : processClassMatch fp fid m = some (n, rels)) :
    n.label = "Class" ∧
    n.id.data.head? = some 'c' ∧
    (∀ r ∈ rels, r.source_node_id = n.id) ∧
    rels.filter (fun r => r.relationship_type == "DEFINED_IN") =
      [createRelationship n.id fid "DEFINED_IN"] ∧
    rels.filter (fun r => r.relationship_type == "EXTENDS") =
      (match m.1.childForField "superclasses" with
       | some bn =>
         if bn.type = "argument_list" then
           (extractBaseClasses bn).map (fun base =>
             createRelationship n.id
               (generateNodeId "Class"
                 [("filePath", JVal.jstr "unknown"), ("name", JVal.jstr base)])
               "EXTENDS")
         else []
       | none => []) ∧
    (∀ r ∈ rels, r.relationship_type = "DEFINED_IN" ∨ r.relationship_type = "EXTENDS" ∨
      r.relationship_type = "HAS_METHOD") := by
  unfold processClassMatch at h
  cases h1 : m.1.childForField "name" with
  | none => rw [h1] at h; exact absurd h (by simp)
  | some nameNode =>
  cases h2 : m.1.childForField "body" with
  | none => rw [h1, h2] at h; exact absurd h (by simp)
  | some bodyNode =>
    rw [h1, h2] at h
    simp only [Option.some.injEq, Prod.mk.injEq] at h
    obtain ⟨hn, hrels⟩ := h
    subst hn
    cases h4 : m.1.childForField "superclasses" with
    | none =>
      simp only [h4] at hrels
      subst hrels
      have hs := classRels_shape
        (generateNodeId "Class" [("filePath", JVal.jstr fp), ("name", JVal.jstr nameNode.text)])
        fid [] (extractMethodsFromClass (some bodyNode) fp
          (generateNodeId "Class" [("filePath", JVal.jstr fp), ("name", JVal.jstr nameNode.text)]))
        (by intro r hr; exact absurd hr (by simp))
        (fun r hr => mem_extractMethods hr)
      refine ⟨rfl, head_generateNodeId_class _, ?_, ?_, ?_, ?_⟩
      · simpa using hs.1
      · simpa using hs.2.1
      · simpa using hs.2.2.1
      · simpa using hs.2.2.2
    | some bn =>
      by_cases h5 : bn.type = "argument_list"
      · simp only [h4, h5, eq_self_iff_true, if_true] at hrels
        subst hrels
        simp only [h4, h5, eq_self_iff_true, if_true]
        have hs := classRels_shape
          (generateNodeId "Class" [("filePath", JVal.jstr fp), ("name", JVal.jstr nameNode.text)])
          fid
          ((extractBaseClasses bn).map (fun baseClass =>
            createRelationship
              (generateNodeId "Class" [("filePath", JVal.jstr fp), ("name", JVal.jstr nameNode.text)])
              (generateNodeId "Class"
                [("filePath", JVal.jstr "unknown"), ("name", JVal.jstr baseClass)])
              "EXTENDS"))
          (extractMethodsFromClass (some bodyNode) fp
            (generateNodeId "Class" [("filePath", JVal.jstr fp), ("name", JVal.jstr nameNode.text)]))
          (by
            intro r hr
            obtain ⟨b, _, rfl⟩ := List.mem_map.mp hr
            exact ⟨rfl, rfl⟩)
          (fun r hr => mem_extractMethods hr)
        exact ⟨by trivial, head_generateNodeId_class _, hs.1, hs.2.1, hs.2.2.1, hs.2.2.2⟩
      · simp only [h4, h5, if_false] at hrels
        subst hrels
        simp only [h4, h5, if_false]
        have hs := classRels_shape
          (generateNodeId "Class" [("filePath", JVal.jstr fp), ("name", JVal.jstr nameNode.text)])
          fid [] (extractMethodsFromClass (some bodyNode) fp
            (generateNodeId "Class" [("filePath", JVal.jstr fp), ("name", JVal.jstr nameNode.text)]))
          (by intro r hr; exact absurd hr (by simp))
          (fun r hr => mem_extractMethods hr)
        refine ⟨by trivial, head_generateNodeId_class _, ?_, ?_, ?_, ?_⟩
        · simpa using hs.1
        · simpa using hs.2.1
        · simpa using hs.2.2.1
        · simpa using hs.2.2.2

theorem map_eq_of_mem {α β : Type} (f g : α → β) :
    ∀ (l : List α), (∀ a ∈ l, f a = g a) → l.map f = l.map g
  | [], _ => rfl
  | a :: rest, h => by
    simp only [List.map_cons]
    rw [h a (List.mem_cons_self a rest),
      map_eq_of_mem f g rest (fun b hb => h b (List.mem_cons_of_mem a hb))]

theorem extractImports_rels_eq (tree : TSNode) (fp : String) :
    (extractImports tree fp).relationships =
      (extractImports tree fp).nodes.map (fun nd =>
        createRelationship (generateNodeId "File" [("path", JVal.jstr fp)]) nd.id
          "IMPORTS") := by
  unfold extractImports
  simp only [List.map_append, List.map_map]
  congr 1

theorem extractImports_nodes_shape {tree : TSNode} {fp : String} {nd : GNode}
    (h : nd ∈ (extractImports tree fp).nodes) :
    nd.label = "Import" ∧ nd.id.data.head? = some 'i' := by
  unfold extractImports at h
  rcases List.mem_append.mp h with h1 | h1 <;>
  · obtain ⟨pr, hpr, rfl⟩ := List.mem_map.mp h1
    obtain ⟨m, _, rfl⟩ := List.mem_map.mp hpr
    exact ⟨rfl, head_generateNodeId_import _⟩

theorem extractImports_rel_types {tree : TSNode} {fp : String} {r : GRel}
    (h : r ∈ (extractImports tree fp).relationships) :
    r.relationship_type = "IMPORTS" ∧
      r.source_node_id = generateNodeId "File" [("path", JVal.jstr fp)] := by
  rw [extractImports_rels_eq] at h
  obtain ⟨nd, _, rfl⟩ := List.mem_map.mp h
  exact ⟨rfl, rfl⟩

theorem extractFunctions_filter_def (tree : TSNode) (fp : String) :
    (extractFunctions tree fp).relationships.filter
        (fun r => r.relationship_type == "DEFINED_IN") =
      (extractFunctions tree fp).nodes.map (fun n =>
        createRelationship n.id (generateNodeId "File" [("path", JVal.jstr fp)])
          "DEFINED_IN") := by
  unfold extractFunctions
  rw [filter_flatten, List.map_map]
  have h1 : ∀ p ∈ ((tsWalk none tree).filter (fun m => isFuncDefMatch m.1)).filterMap
      (processFuncMatch fp (generateNodeId "File" [("path", JVal.jstr fp)])),
      (List.filter (fun r => r.relationship_type == "DEFINED_IN") ∘ Prod.snd) p =
        (fun q => [createRelationship (GNode.id q.1)
          (generateNodeId "File" [("path", JVal.jstr fp)]) "DEFINED_IN"]) p := by
    intro p hp
    obtain ⟨m, _, hm⟩ := List.mem_filterMap.mp hp
    have := (processFuncMatch_shape (show _ = some (p.1, p.2) by rw [hm])).2.2.2.1
    exact this
  rw [map_eq_of_mem _ _ _ h1, flatten_singleton_map, List.map_map]
  rfl

theorem extractFunctions_nodes_shape {tree : TSNode} {fp : String} {n : GNode}
    (h : n ∈ (extractFunctions tree fp).nodes) :
    n.label = "Function" ∧ n.id.data.head? = some 'f' := by
  unfold extractFunctions at h
  obtain ⟨p, hp, rfl⟩ := List.mem_map.mp h
  obtain ⟨m, _, hm⟩ := List.mem_filterMap.mp hp
  have := processFuncMatch_shape (show _ = some (p.1, p.2) by rw [hm])
  exact ⟨this.1, this.2.1⟩

theorem extractFunctions_rel_types {tree : TSNode} {fp : String} {r : GRel}
    (h : r ∈ (extractFunctions tree fp).relationships) :
    (r.relationship_type = "DEFINED_IN" ∨ r.relationship_type = "CALLS" ∨
      r.relationship_type = "DECORATED_WITH") ∧
    ∃ n ∈ (extractFunctions tree fp).nodes, r.source_node_id = n.id := by
  unfold extractFunctions at h ⊢
  obtain ⟨l, hl, hrl⟩ := List.mem_flatten.mp h
  obtain ⟨p, hp, rfl⟩ := List.mem_map.mp hl
  obtain ⟨m, _, hm⟩ := List.mem_filterMap.mp hp
  have hs := processFuncMatch_shape (show _ = some (p.1, p.2) by rw [hm])
  exact ⟨hs.2.2.2.2 r hrl, ⟨p.1, List.mem_map.mpr ⟨p, hp, rfl⟩, hs.2.2.1 r hrl⟩⟩

theorem extractClasses_filter_def (tree : TSNode) (fp : String) :
    (extractClasses tree fp).relationships.filter
        (fun r => r.relationship_type == "DEFINED_IN") =
      (extractClasses tree fp).nodes.map (fun n =>
        createRelationship n.id (generateNodeId "File" [("path", JVal.jstr fp)])
          "DEFINED_IN") := by
  unfold extractClasses
  rw [filter_flatten, List.map_map]
  have h1 : ∀ p ∈ ((tsWalk none tree).filter (fun m => isClassDefMatch m.1)).filterMap
      (processClassMatch fp (generateNodeId "File" [("path", JVal.jstr fp)])),
      (List.filter (fun r => r.relationship_type == "DEFINED_IN") ∘ Prod.snd) p =
        (fun q => [createRelationship (GNode.id q.1)
          (generateNodeId "File" [("path", JVal.jstr fp)]) "DEFINED_IN"]) p := by
    intro p hp
    obtain ⟨m, _, hm⟩ := List.mem_filterMap.mp hp
    exact (processClassMatch_shape (show _ = some (p.1, p.2) by rw [hm])).2.2.2.1
  rw [map_eq_of_mem _ _ _ h1, flatten_singleton_map, List.map_map]
  rfl

theorem extractClasses_nodes_shape {tree : TSNode} {fp : String} {n : GNode}
    (h : n ∈ (extractClasses tree fp).nodes) :
    n.label = "Class" ∧ n.id.data.head? = some 'c' := by
  unfold extractClasses at h
  obtain ⟨p, hp, rfl⟩ := List.mem_map.mp h
  obtain ⟨m, _, hm⟩ := List.mem_filterMap.mp hp
  have := processClassMatch_shape (show _ = some (p.1, p.2) by rw [hm])
  exact ⟨this.1, this.2.1⟩

theorem extractClasses_rel_types {tree : TSNode} {fp : String} {r : GRel}
    (h : r ∈ (extractClasses tree fp).relationships) :
    (r.relationship_type = "DEFINED_IN" ∨ r.relationship_type = "EXTENDS" ∨
      r.relationship_type = "HAS_METHOD") ∧
    ∃ n ∈ (extractClasses tree fp).nodes, r.source_node_id = n.id := by
  unfold extractClasses at h ⊢
  obtain ⟨l, hl, hrl⟩ := List.mem_flatten.mp h
  obtain ⟨p, hp, rfl⟩ := List.mem_map.mp hl
  obtain ⟨m, _, hm⟩ := List.mem_filterMap.mp hp
  have hs := processClassMatch_shape (show _ = some (p.1, p.2) by rw [hm])
  exact ⟨hs.2.2.2.2.2 r hrl, ⟨p.1, List.mem_map.mpr ⟨p, hp, rfl⟩, hs.2.2.1 r hrl⟩⟩

theorem countP_eq_of_mem {α : Type} (p q : α → Bool) :
    ∀ (l : List α), (∀ a ∈ l, p a = q a) → l.countP p = l.countP q
  | [], _ => rfl
  | a :: rest, h => by
    rw [List.countP_cons, List.countP_cons, h a (List.mem_cons_self a rest),
      countP_eq_of_mem p q rest (fun b hb => h b (List.mem_cons_of_mem a hb))]

theorem parseFileWithTree_rels (fp content : String) (tree : TSNode) (now : String) :
    (parseFileWithTree fp content tree now).relationships =
      (extractFunctions tree fp).relationships ++ (extractClasses tree fp).relationships ++
        (extractImports tree fp).relationships := rfl

theorem parseFileWithTree_nodes (fp content : String) (tree : TSNode) (now : String) :
    (parseFileWithTree fp content tree now).nodes =
      createFileNode "python" fp content (generateFileHash content) now ::
        (extractFunctions tree fp).nodes ++ (extractClasses tree fp).nodes ++
          (extractImports tree fp).nodes := rfl

theorem parse_filter_def (tree : TSNode) (fp content now : String) :
    (parseFileWithTree fp content tree now).relationships.filter
        (fun r => r.relationship_type == "DEFINED_IN") =
      (extractFunctions tree fp).nodes.map (fun n =>
        createRelationship n.id (generateNodeId "File" [("path", JVal.jstr fp)])
          "DEFINED_IN") ++
      (extractClasses tree fp).nodes.map (fun n =>
        createRelationship n.id (generateNodeId "File" [("path", JVal.jstr fp)])
          "DEFINED_IN") := by
  rw [parseFileWithTree_rels, List.filter_append, List.filter_append,
    extractFunctions_filter_def, extractClasses_filter_def]
  have himp : (extractImports tree fp).relationships.filter
      (fun r => r.relationship_type == "DEFINED_IN") = [] := by
    rw [List.filter_eq_nil_iff]
    intro r hr
    simp [(extractImports_rel_types hr).1]
  rw [himp, List.append_nil]

theorem parse_filter_imports (tree : TSNode) (fp content now : String) :
    (parseFileWithTree fp content tree now).relationships.filter
        (fun r => r.relationship_type == "IMPORTS") =
      (extractImports tree fp).nodes.map (fun nd =>
        createRelationship (generateNodeId "File" [("path", JVal.jstr fp)]) nd.id
          "IMPORTS") := by
  rw [parseFileWithTree_rels, List.filter_append, List.filter_append]
  have h1 : (extractFunctions tree fp).relationships.filter
      (fun r => r.relationship_type == "IMPORTS") = [] := by
    rw [List.filter_eq_nil_iff]
    intro r hr
    rcases (extractFunctions_rel_types hr).1 with h | h | h <;> simp [h]
  have h2 : (extractClasses tree fp).relationships.filter
      (fun r => r.relationship_type == "IMPORTS") = [] := by
    rw [List.filter_eq_nil_iff]
    intro r hr
    rcases (extractClasses_rel_types hr).1 with h | h | h <;> simp [h]
  have h3 : (extractImports tree fp).relationships.filter
      (fun r => r.relationship_type == "IMPORTS") =
      (extractImports tree fp).relationships := by
    rw [List.filter_eq_self]
    intro r hr
    simp [(extractImports_rel_types hr).1]
  rw [h1, h2, h3, List.nil_append, List.nil_append, extractImports_rels_eq]

/-- C2 (amended): in a parsed Python file, every extracted Function and
Class node has exactly one `DEFINED_IN` relationship, targeting the file's
File node (given distinct generated IDs, as real parse trees produce);
Import nodes have no `DEFINED_IN` relationship at all — they are linked by
exactly one `IMPORTS` relationship from the File node instead — and Export
and Variable nodes are never produced by the Python parser. -/
theorem claim_C2_containment_amended :
    ∀ (tree : TSNode) (fp content now : String),
      (parseFileWithTree fp content tree now).relationships.filter
          (fun r => r.relationship_type == "DEFINED_IN") =
        (extractFunctions tree fp).nodes.map (fun n =>
          createRelationship n.id (generateNodeId "File" [("path", JVal.jstr fp)])
            "DEFINED_IN") ++
        (extractClasses tree fp).nodes.map (fun n =>
          createRelationship n.id (generateNodeId "File" [("path", JVal.jstr fp)])
            "DEFINED_IN") ∧
      ((((extractFunctions tree fp).nodes ++ (extractClasses tree fp).nodes).map
          GNode.id).Nodup →
        ∀ n ∈ (extractFunctions tree fp).nodes ++ (extractClasses tree fp).nodes,
          (parseFileWithTree fp content tree now).relationships.countP
            (fun r => r.relationship_type == "DEFINED_IN" && r.source_node_id == n.id &&
              r.target_node_id == generateNodeId "File" [("path", JVal.jstr fp)]) = 1) ∧
      (∀ nd ∈ (extractImports tree fp).nodes,
        (parseFileWithTree fp content tree now).relationships.countP
          (fun r => r.relationship_type == "DEFINED_IN" && r.source_node_id == nd.id) = 0) ∧
      (((extractImports tree fp).nodes.map GNode.id).Nodup →
        ∀ nd ∈ (extractImports tree fp).nodes,
          (parseFileWithTree fp content tree now).relationships.countP
            (fun r => r.relationship_type == "IMPORTS" &&
              r.source_node_id == generateNodeId "File" [("path", JVal.jstr fp)] &&
              r.target_node_id == nd.id) = 1) ∧
      (∀ n ∈ (parseFileWithTree fp content tree now).nodes,
        n.label = "File" ∨ n.label = "Function" ∨ n.label = "Class" ∨
          n.label = "Import") := by
  intro tree fp content now
  refine ⟨parse_filter_def tree fp content now, ?_, ?_, ?_, ?_⟩
  · intro hnd n hn
    rw [countP_of_imp _ (fun r => r.relationship_type == "DEFINED_IN")
      (by intro r hr; cases h1 : r.relationship_type == "DEFINED_IN" <;> simp_all),
      parse_filter_def]
    rw [List.countP_append, List.countP_map, List.countP_map]
    have hcent : ∀ (l : List GNode),
        l.countP ((fun r => r.relationship_type == "DEFINED_IN" &&
          r.source_node_id == n.id &&
          r.target_node_id == generateNodeId "File" [("path", JVal.jstr fp)]) ∘
          (fun m => createRelationship m.id
            (generateNodeId "File" [("path", JVal.jstr fp)]) "DEFINED_IN")) =
        l.countP (fun m => m.id == n.id) := by
      intro l
      refine countP_eq_of_mem _ _ l ?_
      intro m _
      simp [createRelationship, Function.comp]
    rw [hcent, hcent, ← List.countP_append]
    have hc2 : (((extractFunctions tree fp).nodes ++ (extractClasses tree fp).nodes).map
        GNode.id).countP (fun s => s == n.id) =
        ((extractFunctions tree fp).nodes ++ (extractClasses tree fp).nodes).countP
          (fun m => m.id == n.id) := List.countP_map _ _ _
    rw [← hc2]
    have hm : n.id ∈ ((extractFunctions tree fp).nodes ++
        (extractClasses tree fp).nodes).map GNode.id :=
      List.mem_map.mpr ⟨n, hn, rfl⟩
    have := List.count_eq_one_of_mem hnd hm
    rw [← this]
    rfl
  · intro nd hnd
    rw [countP_of_imp _ (fun r => r.relationship_type == "DEFINED_IN")
      (by intro r hr; cases h1 : r.relationship_type == "DEFINED_IN" <;> simp_all),
      parse_filter_def]
    rw [List.countP_eq_zero]
    intro r hr
    have hi : nd.id.data.head? = some 'i' := (extractImports_nodes_shape hnd).2
    rcases List.mem_append.mp hr with h1 | h1 <;>
      obtain ⟨m, hm, rfl⟩ := List.mem_map.mp h1
    · have hf : m.id.data.head? = some 'f' := (extractFunctions_nodes_shape hm).2
      intro hcon
      simp only [createRelationship, Bool.and_eq_true, beq_iff_eq] at hcon
      have heq : m.id = nd.id := by tauto
      rw [heq] at hf
      rw [hf] at hi
      exact absurd hi (by simp)
    · have hf : m.id.data.head? = some 'c' := (extractClasses_nodes_shape hm).2
      intro hcon
      simp only [createRelationship, Bool.and_eq_true, beq_iff_eq] at hcon
      have heq : m.id = nd.id := by tauto
      rw [heq] at hf
      rw [hf] at hi
      exact absurd hi (by simp)
  · intro hnd nd hmem
    rw [countP_of_imp _ (fun r => r.relationship_type == "IMPORTS")
      (by intro r hr; cases h1 : r.relationship_type == "IMPORTS" <;> simp_all),
      parse_filter_imports]
    rw [List.countP_map]
    have hcent : (extractImports tree fp).nodes.countP
        ((fun r => r.relationship_type == "IMPORTS" &&
          r.source_node_id == generateNodeId "File" [("path", JVal.jstr fp)] &&
          r.target_node_id == nd.id) ∘
          (fun m => createRelationship (generateNodeId "File" [("path", JVal.jstr fp)])
            m.id "IMPORTS")) =
        (extractImports tree fp).nodes.countP (fun m => m.id == nd.id) := by
      refine countP_eq_of_mem _ _ _ ?_
      intro m _
      simp [createRelationship, Function.comp]
    rw [hcent]
    have hc2 : ((extractImports tree fp).nodes.map GNode.id).countP
        (fun s => s == nd.id) =
        (extractImports tree fp).nodes.countP (fun m => m.id == nd.id) :=
      List.countP_map _ _ _
    rw [← hc2]
    have hm : nd.id ∈ (extractImports tree fp).nodes.map GNode.id :=
      List.mem_map.mpr ⟨nd, hmem, rfl⟩
    have := List.count_eq_one_of_mem hnd hm
    rw [← this]
    rfl
  · intro n hn
    rw [parseFileWithTree_nodes] at hn
    rcases List.mem_cons.mp hn with rfl | h1
    · exact Or.inl rfl
    rcases List.mem_append.mp h1 with h2 | h2
    · rcases List.mem_append.mp h2 with h3 | h3
      · exact Or.inr (Or.inl (extractFunctions_nodes_shape h3).1)
      · exact Or.inr (Or.inr (Or.inl (extractClasses_nodes_shape h3).1))
    · exact Or.inr (Or.inr (Or.inr (extractImports_nodes_shape h2).1))

theorem claim_C2_counterexample :
    ((extractImports treeImp "a.py").nodes.map (fun n => (n.id, n.label))) =
      [("import_a_py_os", "Import")] ∧
    (parseFileWithTree "a.py" "import os" treeImp "T").relationships.countP
      (fun r => r.relationship_type == "DEFINED_IN" &&
        r.source_node_id == "import_a_py_os") = 0 ∧
    (parseFileWithTree "a.py" "import os" treeImp "T").relationships.countP
      (fun r => r.relationship_type == "IMPORTS" &&
        r.target_node_id == "import_a_py_os") = 1 := by
  exact ⟨by decide, by decide, by decide⟩

theorem claim_C2_witness :
    ((((extractFunctions pyTreeA "a.py").nodes ++ (extractClasses pyTreeA "a.py").nodes).map
      GNode.id).Nodup) ∧
    (parseFileWithTree "a.py" "src" pyTreeA "T").relationships.countP
      (fun r => r.relationship_type == "DEFINED_IN" &&
        r.source_node_id ==
          ((extractFunctions pyTreeA "a.py").nodes.getD 0 ⟨"", "", []⟩).id &&
        r.target_node_id == generateNodeId "File" [("path", JVal.jstr "a.py")]) = 1 ∧
    (((extractImports pyTreeA "a.py").nodes.map GNode.id).Nodup) ∧
    (parseFileWithTree "a.py" "src" pyTreeA "T").relationships.countP
      (fun r => r.relationship_type == "IMPORTS" &&
        r.source_node_id == generateNodeId "File" [("path", JVal.jstr "a.py")] &&
        r.target_node_id ==
          ((extractImports pyTreeA "a.py").nodes.getD 0 ⟨"", "", []⟩).id) = 1 :=
  ⟨by decide,
   (claim_C2_containment_amended pyTreeA "a.py" "src" "T").2.1 (by decide) _ (by decide),
   by decide,
   (claim_C2_containment_amended pyTreeA "a.py" "src" "T").2.2.2.1 (by decide) _ (by decide)⟩

/-! ## C6: CALLS edges cover only bare-identifier call expressions -/

/-- C6 (amended): for every function body, the extractor emits exactly one
`CALLS` relationship per call expression textually inside the body whose
callee is a bare identifier — keyed by the callee's text, with the
placeholder unknown-file target — in document order; method calls and other
non-identifier callees produce no edge (see the counterexample). -/
theorem claim_C6_calls_amended :
    ∀ (body : TSNode) (filePath functionId : String),
      extractCallsFromFunction (some body) filePath functionId =
        (identifierCallees body).map (fun k =>
          createRelationship functionId
            (generateNodeId "Function"
              [("filePath", JVal.jstr "unknown"), ("name", JVal.jstr k.1),
               ("startLine", JVal.jnum 0)])
            "CALLS" [("line", JVal.jnum (Int.ofNat k.2))]) ∧
      (extractCallsFromFunction (some body) filePath functionId).length =
        ((tsWalk none body).filter (fun m => isCallMatch m.1)).length := by
  intro body fp fid
  have hmain : extractCallsFromFunction (some body) fp fid =
      (identifierCallees body).map (fun k =>
        createRelationship fid
          (generateNodeId "Function"
            [("filePath", JVal.jstr "unknown"), ("name", JVal.jstr k.1),
             ("startLine", JVal.jnum 0)])
          "CALLS" [("line", JVal.jnum (Int.ofNat k.2))]) := by
    unfold extractCallsFromFunction identifierCallees
    rw [List.map_filterMap]
    show List.filterMap _ _ = _
    refine List.filterMap_congr ?_
    intro m _
    cases hcf : m.1.childForField "function" with
    | none => rfl
    | some c => rfl
  refine ⟨hmain, ?_⟩
  rw [hmain, List.length_map]
  unfold identifierCallees
  have : ∀ (l : List (TSNode × Option TSNode)),
      (∀ m ∈ l, isCallMatch m.1 = true) →
      (l.filterMap (fun m => (m.1.childForField "function").map
        (fun c => (c.text, m.1.startRow + 1)))).length = l.length := by
    intro l
    induction l with
    | nil => intro _; rfl
    | cons m rest ih =>
      intro hall
      have hm := hall m (List.mem_cons_self m rest)
      unfold isCallMatch at hm
      rw [List.filterMap_cons]
      cases hcf : m.1.childForField "function" with
      | none => rw [hcf] at hm; simp at hm
      | some c =>
        simp only [Option.map_some']
        rw [List.length_cons, ih (fun x hx => hall x (List.mem_cons_of_mem m hx))]
        rfl
  exact this _ (fun m hm => (List.mem_filter.mp hm).2)

theorem claim_C6_counterexample :
    ((tsWalk none attrCallBody).countP (fun m => m.1.type == "call")) = 1 ∧
    extractCallsFromFunction (some attrCallBody) "a.py" "func_a_py_f_1" = [] := by
  exact ⟨by decide, by decide⟩

/-! ## C7: EXTENDS fan-out per declared base -/

theorem filter_and_comm {α : Type} (A B : α → Bool) :
    ∀ (l : List α), l.filter (fun a => A a && B a) = (l.filter A).filter B
  | [] => rfl
  | a :: rest => by
    rw [List.filter_cons, List.filter_cons]
    by_cases hA : A a
    · by_cases hB : B a
      · rw [if_pos (by simp [hA, hB]), if_pos (by simp [hA]), List.filter_cons,
          if_pos (by simp [hB]), filter_and_comm A B rest]
      · rw [if_neg (by simp [hA, hB]), if_pos (by simp [hA]), List.filter_cons,
          if_neg (by simp [hB]), filter_and_comm A B rest]
    · rw [if_neg (by simp [hA]), if_neg (by simp [hA]), filter_and_comm A B rest]

theorem flatten_filter_unique (pred : GRel → Bool) :
    ∀ (results : List (GNode × List GRel)) (p0 : GNode × List GRel),
      p0 ∈ results →
      ((results.map (fun p => p.1.id)).Nodup) →
      (∀ p ∈ results, p.1.id ≠ p0.1.id → p.2.filter pred = []) →
      ((results.map Prod.snd).flatten).filter pred = p0.2.filter pred
  | [], p0, h, _, _ => absurd h (List.not_mem_nil p0)
  | q :: rest, p0, hmem, hnd, hother => by
    rw [List.map_cons, List.flatten_cons, List.filter_append]
    rw [List.map_cons, List.nodup_cons] at hnd
    rcases List.mem_cons.mp hmem with rfl | hmem2
    · have hrest : ((rest.map Prod.snd).flatten).filter pred = [] := by
        rw [List.filter_eq_nil_iff]
        intro r hr
        obtain ⟨l, hl, hrl⟩ := List.mem_flatten.mp hr
        obtain ⟨p, hp, rfl⟩ := List.mem_map.mp hl
        have hne : p.1.id ≠ p0.1.id := by
          intro he
          exact hnd.1 (he ▸ List.mem_map.mpr ⟨p, hp, rfl⟩)
        have := hother p (List.mem_cons_of_mem p0 hp) hne
        rw [List.filter_eq_nil_iff] at this
        exact this r hrl
      rw [hrest, List.append_nil]
    · have hq : q.1.id ≠ p0.1.id := by
        intro he
        exact hnd.1 (he ▸ List.mem_map.mpr ⟨p0, hmem2, rfl⟩)
      rw [hother q (List.mem_cons_self q rest) hq, List.nil_append]
      exact flatten_filter_unique pred rest p0 hmem2 hnd.2
        (fun p hp hne => hother p (List.mem_cons_of_mem q hp) hne)

/-- C7 (amended): a class's `EXTENDS` relationships in the extracted graph
are exactly one per declared base that is a plain identifier or dotted
attribute, in declaration order, targeting the unknown-file placeholder
Class ID of the base's text (given distinct class IDs in the file).  Bases
of other syntactic forms (e.g. a subscript such as `Generic[T]`) produce no
edge — see the counterexample. -/
theorem claim_C7_extends_amended :
    ∀ (tree : TSNode) (fp content now : String) (m : TSNode × Option TSNode)
      (n : GNode) (rels : List GRel),
      (((extractClasses tree fp).nodes.map GNode.id).Nodup) →
      m ∈ (tsWalk none tree).filter (fun x => isClassDefMatch x.1) →
      processClassMatch fp (generateNodeId "File" [("path", JVal.jstr fp)]) m =
        some (n, rels) →
      (parseFileWithTree fp content tree now).relationships.filter
          (fun r => r.relationship_type == "EXTENDS" && r.source_node_id == n.id) =
        (match m.1.childForField "superclasses" with
         | some bn =>
           if bn.type = "argument_list" then
             (extractBaseClasses bn).map (fun base =>
               createRelationship n.id
                 (generateNodeId "Class"
                   [("filePath", JVal.jstr "unknown"), ("name", JVal.jstr base)])
                 "EXTENDS")
           else []
         | none => []) ∧
      (parseFileWithTree fp content tree now).relationships.countP
          (fun r => r.relationship_type == "EXTENDS" && r.source_node_id == n.id) =
        (match m.1.childForField "superclasses" with
         | some bn =>
           if bn.type = "argument_list" then (extractBaseClasses bn).length else 0
         | none => 0) := by
  intro tree fp content now m n rels hnd hm hproc
  have hs := processClassMatch_shape hproc
  have hmemres : (n, rels) ∈ ((tsWalk none tree).filter
      (fun x => isClassDefMatch x.1)).filterMap
      (processClassMatch fp (generateNodeId "File" [("path", JVal.jstr fp)])) :=
    List.mem_filterMap.mpr ⟨m, hm, hproc⟩
  have hmain : (parseFileWithTree fp content tree now).relationships.filter
      (fun r => r.relationship_type == "EXTENDS" && r.source_node_id == n.id) =
      (match m.1.childForField "superclasses" with
       | some bn =>
         if bn.type = "argument_list" then
           (extractBaseClasses bn).map (fun base =>
             createRelationship n.id
               (generateNodeId "Class"
                 [("filePath", JVal.jstr "unknown"), ("name", JVal.jstr base)])
               "EXTENDS")
         else []
       | none => []) := by
    rw [parseFileWithTree_rels, List.filter_append, List.filter_append]
    have h1 : (extractFunctions tree fp).relationships.filter
        (fun r => r.relationship_type == "EXTENDS" && r.source_node_id == n.id) = [] := by
      rw [List.filter_eq_nil_iff]
      intro r hr
      rcases (extractFunctions_rel_types hr).1 with h | h | h <;> simp [h]
    have h3 : (extractImports tree fp).relationships.filter
        (fun r => r.relationship_type == "EXTENDS" && r.source_node_id == n.id) = [] := by
      rw [List.filter_eq_nil_iff]
      intro r hr
      simp [(extractImports_rel_types hr).1]
    have h2 : (extractClasses tree fp).relationships.filter
        (fun r => r.relationship_type == "EXTENDS" && r.source_node_id == n.id) =
        rels.filter
          (fun r => r.relationship_type == "EXTENDS" && r.source_node_id == n.id) := by
      show (((((tsWalk none tree).filter (fun x => isClassDefMatch x.1)).filterMap
        (processClassMatch fp (generateNodeId "File" [("path", JVal.jstr fp)]))).map
          Prod.snd).flatten).filter _ = _
      refine flatten_filter_unique _ _ (n, rels) hmemres ?_ ?_
      · have : (extractClasses tree fp).nodes.map GNode.id =
            (((tsWalk none tree).filter (fun x => isClassDefMatch x.1)).filterMap
              (processClassMatch fp
                (generateNodeId "File" [("path", JVal.jstr fp)]))).map
              (fun p => p.1.id) := by
          unfold extractClasses
          rw [List.map_map]
          rfl
        rw [← this]
        exact hnd
      · intro p hp hne
        obtain ⟨m2, _, hm2⟩ := List.mem_filterMap.mp hp
        have hs2 := processClassMatch_shape (show _ = some (p.1, p.2) by rw [hm2])
        rw [List.filter_eq_nil_iff]
        intro r hr
        have hsrc := hs2.2.2.1 r hr
        simp only [Bool.and_eq_true, beq_iff_eq]
        rintro ⟨-, h⟩
        exact hne (hsrc ▸ h)
    rw [h1, h2, h3, List.nil_append, List.append_nil]
    rw [filter_and_comm (fun r => r.relationship_type == "EXTENDS")
      (fun r => r.source_node_id == n.id) rels]
    rw [hs.2.2.2.2.1]
    cases h4 : m.1.childForField "superclasses" with
    | none => rfl
    | some bn =>
      by_cases h5 : bn.type = "argument_list"
      · simp only [h5, eq_self_iff_true, if_true]
        rw [List.filter_eq_self]
        intro r hr
        obtain ⟨b, _, rfl⟩ := List.mem_map.mp hr
        simp [createRelationship]
      · simp only [h5, if_false]
        rfl
  refine ⟨hmain, ?_⟩
  rw [List.countP_eq_length_filter, hmain]
  cases h4 : m.1.childForField "superclasses" with
  | none => rfl
  | some bn =>
    by_cases h5 : bn.type = "argument_list"
    · simp only [h5, eq_self_iff_true, if_true, List.length_map]
    · simp only [h5, if_false]
      rfl

theorem claim_C7_counterexample :
    (declaredBases basesSub).length = 1 ∧
    ((extractClasses treeSubBase "a.py").nodes.map (fun n => (n.id, n.label))) =
      [("class_a_py_a", "Class")] ∧
    (extractClasses treeSubBase "a.py").relationships.countP
      (fun r => r.relationship_type == "EXTENDS") = 0 := by
  exact ⟨by decide, by decide, by decide⟩

theorem claim_C7_witness :
    (((extractClasses pyTreeA "a.py").nodes.map GNode.id).Nodup) ∧
    ((pyTreeA.children.getD 0 (none, emptyModule)).2, some pyTreeA) ∈
      (tsWalk none pyTreeA).filter (fun x => isClassDefMatch x.1) ∧
    processClassMatch "a.py" (generateNodeId "File" [("path", JVal.jstr "a.py")])
        ((pyTreeA.children.getD 0 (none, emptyModule)).2, some pyTreeA) =
      some ((processClassMatch "a.py" (generateNodeId "File" [("path", JVal.jstr "a.py")])
        ((pyTreeA.children.getD 0 (none, emptyModule)).2, some pyTreeA)).getD
          (⟨"", "", []⟩, [])) ∧
    ((processClassMatch "a.py" (generateNodeId "File" [("path", JVal.jstr "a.py")])
        ((pyTreeA.children.getD 0 (none, emptyModule)).2, some pyTreeA)).getD
          (⟨"", "", []⟩, [])).1.id = "class_a_py_a" ∧
    (parseFileWithTree "a.py" "src" pyTreeA "T").relationships.countP
        (fun r => r.relationship_type == "EXTENDS" && r.source_node_id ==
          ((processClassMatch "a.py" (generateNodeId "File" [("path", JVal.jstr "a.py")])
            ((pyTreeA.children.getD 0 (none, emptyModule)).2, some pyTreeA)).getD
              (⟨"", "", []⟩, [])).1.id) = 2 := by
  have hfil : (tsWalk none pyTreeA).filter (fun x => isClassDefMatch x.1) =
      [((pyTreeA.children.getD 0 (none, emptyModule)).2, some pyTreeA)] := rfl
  have hmem : ((pyTreeA.children.getD 0 (none, emptyModule)).2, some pyTreeA) ∈
      (tsWalk none pyTreeA).filter (fun x => isClassDefMatch x.1) := by
    rw [hfil]
    exact List.mem_singleton.mpr rfl
  refine ⟨by decide, hmem, by decide, by decide, ?_⟩
  have h := (claim_C7_extends_amended pyTreeA "a.py" "src" "T"
    ((pyTreeA.children.getD 0 (none, emptyModule)).2, some pyTreeA)
    ((processClassMatch "a.py" (generateNodeId "File" [("path", JVal.jstr "a.py")])
      ((pyTreeA.children.getD 0 (none, emptyModule)).2, some pyTreeA)).getD
        (⟨"", "", []⟩, [])).1
    ((processClassMatch "a.py" (generateNodeId "File" [("path", JVal.jstr "a.py")])
      ((pyTreeA.children.getD 0 (none, emptyModule)).2, some pyTreeA)).getD
        (⟨"", "", []⟩, [])).2
    (by decide) hmem (by decide)).2
  exact h.trans (by decide)

/-! ## C3: speculative cross-file references are never rematched -/

/-- C3 (code evaluated at the failing input): `f` in `a.py` calls `g`, which
is defined in `b.py`.  The extracted CALLS relationship targets the
unknown-file placeholder ID `func_unknown_g_0`; no node with that ID exists
in either file's graph (in `b.py` the real `g` gets the file-qualified ID
`func_b_py_g_1`), and the graph override published for `a.py` still carries
the dangling edge unchanged — no rematch by (label, name), no tie-break, no
marking ever happens anywhere in the pipeline. -/
theorem claim_C3_unresolved_reference_dangling :
    (parseFileWithTree "a.py" "def f():\n    g()" treeCallerA "T").relationships.countP
      (fun r => r.relationship_type == "CALLS" &&
        r.target_node_id == "func_unknown_g_0") = 1 ∧
    ((parseFileWithTree "a.py" "def f():\n    g()" treeCallerA "T").nodes.all
      (fun n => n.id != "func_unknown_g_0")) = true ∧
    (((parseFileWithTree "b.py" "def g():\n    pass" treeDefB "T").nodes.map
      GNode.id).contains "func_b_py_g_1") = true ∧
    ((parseFileWithTree "b.py" "def g():\n    pass" treeDefB "T").nodes.all
      (fun n => n.id != "func_unknown_g_0")) = true ∧
    (((GraphBuilder.empty.addNodes
        (parseFileWithTree "a.py" "def f():\n    g()" treeCallerA "T").nodes).addRelationships
        (parseFileWithTree "a.py" "def f():\n    g()" treeCallerA "T").relationships).buildGraphOverride).2.countP
      (fun r => r.relationship_type == "CALLS" &&
        r.target_node_id == "func_unknown_g_0") = 1 ∧
    ((((GraphBuilder.empty.addNodes
        (parseFileWithTree "a.py" "def f():\n    g()" treeCallerA "T").nodes).addRelationships
        (parseFileWithTree "a.py" "def f():\n    g()" treeCallerA "T").relationships).buildGraphOverride).1.all
      (fun n => n.id != "func_unknown_g_0")) = true := by
  exact ⟨by decide, by decide, by decide, by decide, by decide, by decide⟩

/-! ## C9: a missing credential does not abort the batch -/
theorem indexFile_publishFailed {it ig : Bool} {f : FileEnv}
    (hr : reachesPublish it ig f = true) (hp : f.publish.1 = false)
    (so st : Bool) :
    indexFile so it ig st f =
      (IndexOutcome.failed f.path none,
        [IndexEvent.parsedFile f.path, IndexEvent.publishedFile f.path],
        (indexerInitialize so st).2) := by
  unfold reachesPublish at hr
  simp only [Bool.and_eq_true] at hr
  obtain ⟨⟨⟨h1, h2⟩, h3⟩, h4⟩ := hr
  obtain ⟨l, hdl, hlpy⟩ : ∃ l, detectLanguage f.path = some l ∧ l = "python" := by
    cases hdl0 : detectLanguage f.path with
    | none => rw [hdl0] at h2; exact absurd h2 (by simp)
    | some l =>
      rw [hdl0] at h2
      exact ⟨l, rfl, by simpa using h2⟩
  obtain ⟨content, hread⟩ : ∃ c, f.read = Except.ok c := by
    cases hread0 : f.read with
    | error er => rw [hread0] at h3; exact absurd h3 (by simp)
    | ok c => exact ⟨c, rfl⟩
  obtain ⟨tree, hparse⟩ : ∃ t, f.parse = Except.ok t := by
    cases hparse0 : f.parse with
    | error er => rw [hparse0] at h4; exact absurd h4 (by simp)
    | ok t => exact ⟨t, rfl⟩
  obtain ⟨o, hpub⟩ : ∃ o, f.publish = (false, o) := ⟨f.publish.2, by rw [← hp]⟩
  subst hlpy
  unfold indexFile
  rw [h1]
  simp only [Bool.not_true, Bool.false_eq_true, if_false, hdl, hread, hparse, hpub]
  rw [if_neg (by simp)]
  rfl

theorem indexFile_not_success {so it ig st : Bool} {f : FileEnv}
    (hp : f.publish.1 = false) :
    ∀ p, (indexFile so it ig st f).1 ≠ IndexOutcome.success p := by
  intro p
  unfold indexFile
  by_cases h1 : shouldIndexFile f.path it ig
  · rw [h1]
    simp only [Bool.not_true, Bool.false_eq_true, if_false]
    cases hdl : detectLanguage f.path with
    | none => simp
    | some l =>
      dsimp only
      by_cases hl : l ≠ "python"
      · rw [if_pos hl]
        simp
      · rw [if_neg hl]
        cases hread : f.read with
        | error er => simp
        | ok content =>
          dsimp only
          cases hparse : f.parse with
          | error er => simp [parseFile]
          | ok tree =>
            simp only [parseFile, hp]
            simp
  · have h1f : shouldIndexFile f.path it ig = false := by simpa using h1
    rw [h1f]
    simp

theorem foldl_success_const (so it ig : Bool) :
    ∀ (files : List FileEnv) (acc : IndexSummary × List IndexEvent × Bool),
      (∀ f ∈ files, ∀ st p, (indexFile so it ig st f).1 ≠ IndexOutcome.success p) →
      (files.foldl (indexFilesStep so it ig) acc).1.success = acc.1.success
  | [], _, _ => rfl
  | f :: rest, acc, h => by
    have h1 : (f :: rest).foldl (indexFilesStep so it ig) acc =
        rest.foldl (indexFilesStep so it ig) (indexFilesStep so it ig acc f) := rfl
    rw [h1, foldl_success_const so it ig rest _
      (fun g hg => h g (List.mem_cons_of_mem f hg))]
    show (recordOutcome acc.1 (indexFile so it ig acc.2.2 f).1).success = acc.1.success
    cases ho : (indexFile so it ig acc.2.2 f).1 with
    | success p => exact absurd ho (h f (List.mem_cons_self f rest) acc.2.2 p)
    | skipped p reason => simp [recordOutcome]
    | failed p er => simp [recordOutcome]

theorem foldl_errors_mono (so it ig : Bool) :
    ∀ (files : List FileEnv) (acc : IndexSummary × List IndexEvent × Bool)
      (e : String × Option String), e ∈ acc.1.errors →
      e ∈ (files.foldl (indexFilesStep so it ig) acc).1.errors
  | [], _, _, h => h
  | f :: rest, acc, e, h => by
    refine foldl_errors_mono so it ig rest (indexFilesStep so it ig acc f) e ?_
    show e ∈ (recordOutcome acc.1 (indexFile so it ig acc.2.2 f).1).errors
    cases (indexFile so it ig acc.2.2 f).1 with
    | success p => exact h
    | skipped p reason => exact h
    | failed p er => exact List.mem_append_left _ h

theorem foldl_events_mono (so it ig : Bool) :
    ∀ (files : List FileEnv) (acc : IndexSummary × List IndexEvent × Bool)
      (ev : IndexEvent), ev ∈ acc.2.1 →
      ev ∈ (files.foldl (indexFilesStep so it ig) acc).2.1
  | [], _, _, h => h
  | f :: rest, acc, ev, h =>
    foldl_events_mono so it ig rest (indexFilesStep so it ig acc f) ev
      (List.mem_append_left _ h)

theorem foldl_publishFailed_file (it ig : Bool) :
    ∀ (files : List FileEnv) (acc : IndexSummary × List IndexEvent × Bool)
      (f : FileEnv), f ∈ files → reachesPublish it ig f = true →
      f.publish.1 = false →
      (f.path, (none : Option String)) ∈
        (files.foldl (indexFilesStep false it ig) acc).1.errors ∧
      IndexEvent.parsedFile f.path ∈ (files.foldl (indexFilesStep false it ig) acc).2.1 ∧
      IndexEvent.publishedFile f.path ∈ (files.foldl (indexFilesStep false it ig) acc).2.1
  | g :: rest, acc, f, hmem, hr, hp => by
    rcases List.mem_cons.mp hmem with rfl | hmem2
    · have hstep : indexFilesStep false it ig acc f =
          (recordOutcome acc.1 (IndexOutcome.failed f.path none),
           acc.2.1 ++ [IndexEvent.parsedFile f.path, IndexEvent.publishedFile f.path],
           (indexerInitialize false acc.2.2).2) := by
        unfold indexFilesStep
        rw [indexFile_publishFailed hr hp]
      have h1 : (f :: rest).foldl (indexFilesStep false it ig) acc =
          rest.foldl (indexFilesStep false it ig) (indexFilesStep false it ig acc f) := rfl
      rw [h1, hstep]
      refine ⟨?_, ?_, ?_⟩
      · refine foldl_errors_mono false it ig rest _ _ ?_
        show (f.path, (none : Option String)) ∈
          (recordOutcome acc.1 (IndexOutcome.failed f.path none)).errors
        exact List.mem_append_right _ (List.mem_singleton.mpr rfl)
      · refine foldl_events_mono false it ig rest _ _ ?_
        exact List.mem_append_right _ (by simp)
      · refine foldl_events_mono false it ig rest _ _ ?_
        exact List.mem_append_right _ (by simp)
    · exact foldl_publishFailed_file it ig rest (indexFilesStep false it ig acc g) f hmem2 hr hp

/-- C9 (amended): a missing PAPR credential does not abort the batch.
`initialize` fails but `indexFile` ignores the failure: no file succeeds,
every file is still either skipped by the filters or processed and
individually marked failed, and every file that reaches the publish call is
parsed, has its publish call made, and is recorded in the error list as
`(path, none)`.  The missing-credential message itself never reaches the
summary: `addCodeMemory` catches the `getClient` throw and returns
`success: false` with the message in its `error` field, which the
publish-result return of `indexFile` drops. -/
theorem claim_C9_no_abort_amended :
    ∀ (it ig : Bool) (files : List FileEnv),
      (∀ f ∈ files, f.publish = (false, some missingKeyError)) →
      (indexFiles false it ig files).1.success = 0 ∧
      (indexFiles false it ig files).1.failed + (indexFiles false it ig files).1.skipped =
        files.length ∧
      ∀ f ∈ files, reachesPublish it ig f = true →
        (f.path, (none : Option String)) ∈ (indexFiles false it ig files).1.errors ∧
        IndexEvent.parsedFile f.path ∈ (indexFiles false it ig files).2 ∧
        IndexEvent.publishedFile f.path ∈ (indexFiles false it ig files).2 := by
  intro it ig files hall
  have hzero : (indexFiles false it ig files).1.success = 0 := by
    unfold indexFiles
    exact foldl_success_const false it ig files (IndexSummary.empty, [], false)
      (fun f hf st p => indexFile_not_success (by rw [hall f hf]) p)
  refine ⟨hzero, ?_, ?_⟩
  · have h := indexFiles_counts_foldl false it ig files (IndexSummary.empty, [], false)
    have h2 : (indexFiles false it ig files).1.success +
        (indexFiles false it ig files).1.failed +
        (indexFiles false it ig files).1.skipped = files.length := by
      simpa [indexFiles, IndexSummary.empty] using h
    omega
  · intro f hf hr
    exact foldl_publishFailed_file it ig files (IndexSummary.empty, [], false) f hf hr
      (by rw [hall f hf])

theorem claim_C9_counterexample :
    (indexFiles false false false [noKeyEnv "a.py", noKeyEnv "c.py"]).1 =
      { success := 0, failed := 2, skipped := 0,
        errors := [("a.py", none), ("c.py", none)],
        indexed := [] } ∧
    (indexFiles false false false [noKeyEnv "a.py", noKeyEnv "c.py"]).2 =
      [IndexEvent.parsedFile "a.py", IndexEvent.publishedFile "a.py",
       IndexEvent.parsedFile "c.py", IndexEvent.publishedFile "c.py"] ∧
    (noKeyEnv "a.py").publish = (false, some missingKeyError) := by
  exact ⟨by decide, by decide, by decide⟩

theorem claim_C9_witness :
    (∀ f ∈ [noKeyEnv "a.py", noKeyEnv "c.py"],
        f.publish = (false, some missingKeyError)) ∧
    (indexFiles false false false [noKeyEnv "a.py", noKeyEnv "c.py"]).1.success = 0 ∧
    (indexFiles false false false [noKeyEnv "a.py", noKeyEnv "c.py"]).1.failed +
      (indexFiles false false false [noKeyEnv "a.py", noKeyEnv "c.py"]).1.skipped = 2 ∧
    reachesPublish false false (noKeyEnv "a.py") = true ∧
    (("a.py", (none : Option String)) ∈
      (indexFiles false false false [noKeyEnv "a.py", noKeyEnv "c.py"]).1.errors ∧
     IndexEvent.parsedFile "a.py" ∈
      (indexFiles false false false [noKeyEnv "a.py", noKeyEnv "c.py"]).2 ∧
     IndexEvent.publishedFile "a.py" ∈
      (indexFiles false false false [noKeyEnv "a.py", noKeyEnv "c.py"]).2) := by
  have hall : ∀ f ∈ [noKeyEnv "a.py", noKeyEnv "c.py"],
      f.publish = (false, some missingKeyError) := by
    intro f hf
    rcases List.mem_cons.mp hf with rfl | hf2
    · rfl
    rcases List.mem_cons.mp hf2 with rfl | hf3
    · rfl
    · exact absurd hf3 (List.not_mem_nil f)
  have h := claim_C9_no_abort_amended false false [noKeyEnv "a.py", noKeyEnv "c.py"] hall
  exact ⟨hall, h.1, h.2.1, by decide,
    h.2.2 (noKeyEnv "a.py") (List.mem_cons_self _ _) (by decide)⟩
